import Mathlib

set_option autoImplicit false

/-!
Verification development for the ldesign-ppt OOXML presentation pipeline.

The TypeScript sources are embedded shallowly:

* JavaScript values that flow through the XML object tree (the output of
  fast-xml-parser) are modelled by the inductive type `JSVal`; JS truthiness,
  nullish coalescing and property access are modelled explicitly.
* JavaScript numbers are modelled as exact integers (`Int`); `parseInt` is
  modelled as `Option Int`, `none` standing for `NaN`.  Where the source
  stores a possibly-NaN number we either keep the `Option` (color modifiers)
  or, where later arithmetic would require full IEEE semantics (animation
  durations), collapse `NaN` to `0`; a comment marks each such spot.  No
  claim below depends on a NaN value.
* Lean's `String` primitives do not always reduce definitionally, so the
  string operations used by the source (startsWith, split, includes,
  replace, lastIndexOf, trim) are implemented over `List Char`.
* Fallible code is modelled with `Option`/`Except`; the thrown JS errors of
  the top-level parser become `Except.error`.
-/

/-! # JavaScript string primitives over List Char -/

namespace JsStr

/-- startsWith on character lists. -/
def startsWithL : List Char → List Char → Bool
  | [], _ => true
  | _ :: _, [] => false
  | p :: ps, c :: cs => p = c && startsWithL ps cs

/-- JS String.prototype.startsWith. -/
def startsWith (s pre : String) : Bool := startsWithL pre.data s.data

/-- Split a character list at every occurrence of separator c. -/
def splitOnCharAux (c : Char) : List Char → List Char → List (List Char)
  | [], acc => [acc.reverse]
  | x :: xs, acc =>
    if x = c then acc.reverse :: splitOnCharAux c xs []
    else splitOnCharAux c xs (x :: acc)

/-- JS String.prototype.split with a one-character separator. -/
def splitChar (s : String) (c : Char) : List String :=
  (splitOnCharAux c s.data []).map String.mk

/-- Join character lists with a separator between consecutive entries. -/
def joinLC (sep : List Char) : List (List Char) → List Char
  | [] => []
  | [a] => a
  | a :: rest => a ++ sep ++ joinLC sep rest

/-- JS Array.prototype.join for strings. -/
def joinWith (sep : String) (l : List String) : String :=
  String.mk (joinLC sep.data (l.map String.data))

/-- Whether sub occurs in l (substring containment on lists). -/
def containsL (l sub : List Char) : Bool :=
  match l with
  | [] => startsWithL sub []
  | _ :: rest => startsWithL sub l || containsL rest sub

/-- JS String.prototype.includes. -/
def includes (s sub : String) : Bool := containsL s.data sub.data

/-- JS String.prototype.endsWith. -/
def endsWith (s suf : String) : Bool := startsWithL suf.data.reverse s.data.reverse

/-- Index of the last occurrence of c in l, head-recursively: an occurrence
in the tail wins over one at the head. -/
def lastIdx (c : Char) : List Char → Option Nat
  | [] => none
  | x :: xs =>
    match lastIdx c xs with
    | some i => some (i + 1)
    | none => if x = c then some 0 else none

/-- JS String.prototype.lastIndexOf for a one-character needle: index of the
last occurrence, -1 when absent. -/
def lastIndexOfChar (s : String) (c : Char) : Int :=
  match lastIdx c s.data with
  | some i => (i : Int)
  | none => -1

/-- JS String.prototype.substring with clamping of the end index. -/
def substringTo (s : String) (stop : Int) : String :=
  String.mk (s.data.take (stop.toNat))

/-- Replace the first occurrence of pat in s (JS String.prototype.replace
with a plain-string pattern). -/
def replaceFirstL (l pat repl : List Char) : List Char :=
  match l with
  | [] => if pat = [] then repl else []
  | x :: rest =>
    if startsWithL pat l then repl ++ l.drop pat.length
    else x :: replaceFirstL rest pat repl

/-- JS String.prototype.replace with a plain-string pattern. -/
def replaceFirst (s pat repl : String) : String :=
  String.mk (replaceFirstL s.data pat.data repl.data)

/-- JS whitespace test, restricted to the characters that matter here. -/
def isWs (c : Char) : Bool := c = ' ' || c = '\t' || c = '\n' || c = '\r'

/-- Numeric value of a longest leading digit run, none when the first
character is not a digit. -/
def leadDigits : List Char → Option Nat
  | [] => none
  | c :: cs =>
    if c.isDigit then
      some ((c :: cs).takeWhile Char.isDigit |>.foldl (fun acc d => acc * 10 + (d.toNat - 48)) 0)
    else none

/-- JS parseInt(s, 10): skip whitespace, optional sign, longest digit run;
none models NaN. -/
def parseIntJS (s : String) : Option Int :=
  match s.data.dropWhile isWs with
  | '-' :: rest => (leadDigits rest).map (fun n => -(n : Int))
  | '+' :: rest => (leadDigits rest).map (fun n => (n : Int))
  | rest => (leadDigits rest).map (fun n => (n : Int))

/-- parseInt with NaN collapsed to 0 (see the header on number modelling). -/
def parseIntD (s : String) : Int := (parseIntJS s).getD 0

/-- Lower-case a string (ASCII; used for file-extension tests). -/
def toLowerS (s : String) : String := String.mk (s.data.map Char.toLower)

end JsStr

/-! # The JavaScript value model -/

/-- A JavaScript value as seen in the object trees produced by
fast-xml-parser: undefined, null, booleans, (integer) numbers, strings,
arrays and plain objects. -/
inductive JSVal where
  | vUndef
  | vNull
  | vBool (b : Bool)
  | vNum (n : Int)
  | vStr (s : String)
  | vArr (elems : List JSVal)
  | vObj (fields : List (String × JSVal))

namespace JSVal

/-- JS truthiness (NaN does not occur: numbers are modelled as integers). -/
def truthy : JSVal → Bool
  | vUndef => false
  | vNull => false
  | vBool b => b
  | vNum n => n != 0
  | vStr s => s != ""
  | vArr _ => true
  | vObj _ => true

/-- Whether a value is undefined. -/
def isUndef : JSVal → Bool
  | vUndef => true
  | _ => false

/-- Whether a value is nullish (undefined or null). -/
def nullish : JSVal → Bool
  | vUndef => true
  | vNull => true
  | _ => false

/-- JS property read o[k].  Missing keys and non-object receivers give
undefined (numeric array indexing and string 'length' are never used by the
embedded code paths). -/
def idx : JSVal → String → JSVal
  | vObj fields, k =>
    match fields.find? (fun p => p.1 = k) with
    | some p => p.2
    | none => vUndef
  | _, _ => vUndef

/-- JS a ?? b. -/
def nc (a b : JSVal) : JSVal := if a.nullish then b else a

/-- JS a || b. -/
def jsOr (a b : JSVal) : JSVal := if a.truthy then a else b

/-- JS string coercion, exact for the strings and numbers the embedded code
feeds it; array/object coercion is approximated (never exercised by a
theorem below). -/
def toStr : JSVal → String
  | vUndef => "undefined"
  | vNull => "null"
  | vBool b => if b then "true" else "false"
  | vNum n => toString n
  | vStr s => s
  | vArr _ => ""
  | vObj _ => "[object Object]"

/-- Value of v when truthy, else the string d: models (expr || 'd') at the
call sites where the source supplies a string default. -/
def strOr (v : JSVal) (d : String) : String := if v.truthy then v.toStr else d

/-- The value as a string when it is one (models call sites that store a
string-typed attribute result). -/
def asStr : JSVal → Option String
  | vStr s => some s
  | _ => none

theorem truthy_ne_undef {v : JSVal} (h : v.truthy = true) : v.isUndef = false := by
  cases v <;> simp_all [truthy, isUndef]

end JSVal

open JSVal

/-! # Size lemmas used for termination of the recursive XML walkers -/

theorem JSVal.sizeOf_idx_of_ne (o : JSVal) (k : String) (h : (o.idx k).isUndef = false) :
    sizeOf (o.idx k) + 3 ≤ sizeOf o := by
  cases o with
  | vObj fields =>
    simp only [idx] at *
    cases hf : fields.find? (fun p => p.1 = k) with
    | none => simp [hf, isUndef] at h
    | some p =>
      simp only [hf] at h ⊢
      have hm : p ∈ fields := List.mem_of_find?_eq_some hf
      have hlt : sizeOf p < sizeOf fields := List.sizeOf_lt_of_mem hm
      cases p with
      | mk a b =>
        have hp : sizeOf ((a, b) : String × JSVal) = 1 + sizeOf a + sizeOf b := by simp
        have hao : sizeOf (vObj fields) = 1 + sizeOf fields := by
          simp [JSVal.vObj.sizeOf_spec]
        simp only [hp] at hlt
        simp only [hao]
        omega
  | vUndef => simp [idx, isUndef] at h
  | vNull => simp [idx, isUndef] at h
  | vBool b => simp [idx, isUndef] at h
  | vNum n => simp [idx, isUndef] at h
  | vStr s => simp [idx, isUndef] at h
  | vArr l => simp [idx, isUndef] at h

/-! # The Markup Parser (XMLParser, src/packages/core/src/parser/xml-parser.ts) -/

namespace XMLParser

/-- XMLParser.ensureArray: absence (any falsy value) gives the empty array,
arrays pass through, other values are wrapped. -/
def ensureArray (value : JSVal) : List JSVal :=
  if ¬ value.truthy then []
  else match value with
    | .vArr xs => xs
    | x => [x]

/-- The element names getChild refuses to unwrap from one-element arrays. -/
def unwrapExceptions : List String :=
  ["p", "r", "t", "br", "fld", "gs", "lin", "tc", "sp", "pic", "graphicFrame", "grpSp", "cxnSp"]

/-- Local part of a possibly prefixed name (name.split(':')[1] when the
name contains a colon, else the name itself). -/
def localNameOf (name : String) : String :=
  if JsStr.includes name ":" then ((JsStr.splitChar name ':').getD 1 "")
  else name

/-- The namespace prefixes getChild probes, in order. -/
def nsPrefixes : List String := ["a:", "p:", "r:", "c:", "dgm:", "mc:", "w:", "wp:", ""]

/-- First prefixed hit of the namespace probe loop. -/
def nsProbe (element : JSVal) (localName : String) : List String → JSVal
  | [] => .vUndef
  | ns :: rest =>
    if ¬ (element.idx (ns ++ localName)).isUndef then element.idx (ns ++ localName)
    else nsProbe element localName rest

/-- XMLParser.getChild: exact-name lookup, then the namespace-prefix probe,
then unwrapping of one-element arrays outside the exception list. -/
def getChild (element : JSVal) (name : String) : JSVal :=
  if ¬ element.truthy then .vUndef
  else
    let result :=
      if ¬ (element.idx name).isUndef then element.idx name
      else nsProbe element (localNameOf name) nsPrefixes
    match result with
    | .vArr [x] => if unwrapExceptions.contains (localNameOf name) then .vArr [x] else x
    | r => r

/-- XMLParser.getAttr with an explicit default (vUndef when the source
omits it). -/
def getAttr (element : JSVal) (name : String) (dflt : JSVal := .vUndef) : JSVal :=
  if ¬ element.truthy then dflt
  else
    let value := nc (element.idx ("@_" ++ name)) (element.idx name)
    if value.isUndef then
      let shortName := localNameOf name
      nc (nc (element.idx ("@_" ++ shortName)) (element.idx shortName)) dflt
    else nc value dflt

/-- XMLParser.parseBoolean. -/
def parseBoolean (value : JSVal) (defaultValue : Bool := false) : Bool :=
  match value with
  | .vUndef => defaultValue
  | .vNull => defaultValue
  | .vBool b => b
  | v => v.toStr = "true" || v.toStr = "1" || v.toStr = "on"

/-- XMLParser.parseAngle: raw 60000ths of a degree to degrees. -/
def parseAngle (angle : JSVal) : Rat :=
  match angle with
  | .vUndef => 0
  | .vNull => 0
  | .vStr s => ((JsStr.parseIntJS s).getD 0 : Rat) / 60000
  | .vNum n => (n : Rat) / 60000
  | _ => 0

/-- A parsed color with its unevaluated modifiers.  Modifier fields are
`Option (Option Int)`: outer none = attribute chain absent, inner none =
parseInt gave NaN. -/
structure ParsedColor where
  type : String
  value : String
  alpha : Option (Option Int) := none
  lumMod : Option (Option Int) := none
  lumOff : Option (Option Int) := none
  satMod : Option (Option Int) := none
  shade : Option (Option Int) := none
  tint : Option (Option Int) := none

/-- XMLParser.parseColorModifier: raw integer of the modifier child's val
attribute, with no unit conversion. -/
def parseColorModifier (colorElement : JSVal) (modifierName : String) : Option (Option Int) :=
  let modifier := getChild colorElement modifierName
  if ¬ modifier.truthy then none
  else
    let val := getAttr modifier "val"
    if ¬ val.truthy then none
    else some (JsStr.parseIntJS val.toStr)

/-- The six modifiers parseColor extracts from a recognized color child. -/
def parseModifiers (clrElement : JSVal) : ParsedColor → ParsedColor := fun c =>
  { c with
    alpha := parseColorModifier clrElement "alpha"
    lumMod := parseColorModifier clrElement "lumMod"
    lumOff := parseColorModifier clrElement "lumOff"
    satMod := parseColorModifier clrElement "satMod"
    shade := parseColorModifier clrElement "shade"
    tint := parseColorModifier clrElement "tint" }

/-- Rendering of the hsl(...) css string; JS float formatting is
approximated by rational rendering (never inspected by a theorem). -/
def hslValueString (hue sat lum : String) : String :=
  "hsl(" ++ toString (((JsStr.parseIntJS hue).getD 0 : Rat) / 60000) ++ ", " ++
    toString (((JsStr.parseIntJS sat).getD 0 : Rat) / 1000) ++ "%, " ++
    toString (((JsStr.parseIntJS lum).getD 0 : Rat) / 1000) ++ "%)"

/-- XMLParser.parseColor: recognizes srgbClr, schemeClr, prstClr, hslClr,
sysClr (in that order) and carries the modifiers through raw; null when no
recognized color child exists. -/
def parseColor (colorElement : JSVal) : Option ParsedColor :=
  if ¬ colorElement.truthy then none
  else
    let srgbClr := getChild colorElement "srgbClr"
    if srgbClr.truthy then
      let val := (getAttr srgbClr "val").strOr "000000"
      some (parseModifiers srgbClr { type := "rgb", value := "#" ++ val })
    else
      let schemeClr := getChild colorElement "schemeClr"
      if schemeClr.truthy then
        let val := (getAttr schemeClr "val").strOr "tx1"
        some (parseModifiers schemeClr { type := "scheme", value := val })
      else
        let prstClr := getChild colorElement "prstClr"
        if prstClr.truthy then
          let val := (getAttr prstClr "val").strOr "black"
          some (parseModifiers prstClr { type := "preset", value := val })
        else
          let hslClr := getChild colorElement "hslClr"
          if hslClr.truthy then
            let hue := (getAttr hslClr "hue").strOr "0"
            let sat := (getAttr hslClr "sat").strOr "0"
            let lum := (getAttr hslClr "lum").strOr "0"
            some (parseModifiers hslClr { type := "hsl", value := hslValueString hue sat lum })
          else
            let sysClr := getChild colorElement "sysClr"
            if sysClr.truthy then
              let lastClr := getAttr sysClr "lastClr"
              if lastClr.truthy then
                some (parseModifiers sysClr { type := "rgb", value := "#" ++ lastClr.toStr })
              else
                let val := (getAttr sysClr "val").strOr "windowText"
                some (parseModifiers sysClr { type := "system", value := val })
            else none

end XMLParser

/-! ## Size bounds for getChild/ensureArray (termination of recursive walkers) -/

theorem JSVal.one_le_sizeOf (v : JSVal) : 1 ≤ sizeOf v := by
  cases v <;> simp <;> omega

theorem XMLParser.sizeOf_nsProbe (e : JSVal) (l : String) (ps : List String) :
    (XMLParser.nsProbe e l ps).isUndef = true ∨ sizeOf (XMLParser.nsProbe e l ps) + 3 ≤ sizeOf e := by
  induction ps with
  | nil => left; rfl
  | cons ns rest ih =>
    simp only [XMLParser.nsProbe]
    by_cases h : (e.idx (ns ++ l)).isUndef
    · simpa [h] using ih
    · right
      simp only [h]
      simpa using JSVal.sizeOf_idx_of_ne e (ns ++ l) (by simpa using h)

theorem XMLParser.sizeOf_getChild (o : JSVal) (n : String) :
    (XMLParser.getChild o n).isUndef = true ∨ sizeOf (XMLParser.getChild o n) + 3 ≤ sizeOf o := by
  unfold XMLParser.getChild
  by_cases ht : o.truthy
  · simp only [ht]
    have hres : ((if ¬ (o.idx n).isUndef then o.idx n
        else XMLParser.nsProbe o (XMLParser.localNameOf n) XMLParser.nsPrefixes)).isUndef = true ∨
        sizeOf ((if ¬ (o.idx n).isUndef then o.idx n
        else XMLParser.nsProbe o (XMLParser.localNameOf n) XMLParser.nsPrefixes)) + 3 ≤ sizeOf o := by
      by_cases hi : (o.idx n).isUndef
      · simpa [hi] using XMLParser.sizeOf_nsProbe o (XMLParser.localNameOf n) XMLParser.nsPrefixes
      · simp only [hi]
        exact Or.inr (by simpa using JSVal.sizeOf_idx_of_ne o n (by simpa using hi))
    generalize hr : (if ¬ (o.idx n).isUndef then o.idx n
        else XMLParser.nsProbe o (XMLParser.localNameOf n) XMLParser.nsPrefixes) = r at hres
    rcases hres with hu | hs
    · cases r <;> simp_all [JSVal.isUndef]
    · match r with
      | .vArr [x] =>
        right
        by_cases hexc : XMLParser.unwrapExceptions.contains (XMLParser.localNameOf n) = true
        · simp only [hexc, if_true, not_true]
          simp
          simp at hs
          omega
        · simp only [hexc, if_false, not_true]
          simp
          simp at hs
          omega
      | .vUndef => left; simp [JSVal.isUndef]
      | .vNull => right; simp; simp at hs; omega
      | .vBool b => right; simp; simp at hs; omega
      | .vNum m => right; simp; simp at hs; omega
      | .vStr s => right; simp; simp at hs; omega
      | .vArr [] => right; simp; simp at hs; omega
      | .vArr (a :: b :: rest) => right; simp; simp at hs; omega
      | .vObj fs => right; simp; simp at hs; omega
  · simp [ht, JSVal.isUndef]

theorem XMLParser.sizeOf_ensureArray (v : JSVal) :
    sizeOf (XMLParser.ensureArray v) ≤ sizeOf v + 2 := by
  unfold XMLParser.ensureArray
  by_cases ht : v.truthy
  · simp only [ht]
    match v with
    | .vArr xs => simp <;> omega
    | .vUndef => simp <;> omega
    | .vNull => simp <;> omega
    | .vBool b => simp <;> omega
    | .vNum n => simp <;> omega
    | .vStr s => simp <;> omega
    | .vObj fs => simp <;> omega
  · have h1 : sizeOf ([] : List JSVal) = 1 := by simp
    simp only [ht]
    simp only [Bool.false_eq_true, not_false_eq_true, if_true]
    have := JSVal.one_le_sizeOf v
    omega

theorem XMLParser.sizeOf_ensureArray_getChild (o : JSVal) (n : String) :
    sizeOf (XMLParser.ensureArray (XMLParser.getChild o n)) ≤ sizeOf o := by
  rcases XMLParser.sizeOf_getChild o n with hu | hs
  · have he : XMLParser.getChild o n = JSVal.vUndef := by
      cases h : XMLParser.getChild o n <;> simp_all [JSVal.isUndef]
    rw [he]
    have h1 : sizeOf (XMLParser.ensureArray JSVal.vUndef) = 1 := by rfl
    rw [h1]
    exact JSVal.one_le_sizeOf o
  · have := XMLParser.sizeOf_ensureArray (XMLParser.getChild o n)
    omega

theorem XMLParser.sizeOf_getChild_of_truthy (o : JSVal) (n : String)
    (h : (XMLParser.getChild o n).truthy = true) :
    sizeOf (XMLParser.getChild o n) + 3 ≤ sizeOf o := by
  rcases XMLParser.sizeOf_getChild o n with hu | hs
  · rw [JSVal.truthy_ne_undef h] at hu; cases hu
  · exact hs

/-! # Path resolution (PPTXParser.resolvePath, src/unnamed/part_006) -/

namespace PPTXParser

/-- PPTXParser.resolvePath: join non-dot-dot targets onto the base part's
directory; otherwise pop one directory per leading-.. segment and append the
remaining non-dot segments. -/
def resolvePath (basePath relativePath : String) : String :=
  if ¬ JsStr.startsWith relativePath ".." then
    let baseDir := JsStr.substringTo basePath (JsStr.lastIndexOfChar basePath '/')
    baseDir ++ "/" ++ relativePath
  else
    let baseParts := (JsStr.splitChar basePath '/').dropLast
    let relParts := JsStr.splitChar relativePath '/'
    let finalParts := relParts.foldl
      (fun acc part =>
        if part = ".." then acc.dropLast
        else if part ≠ "." then acc ++ [part]
        else acc)
      baseParts
    JsStr.joinWith "/" finalParts

end PPTXParser

/-- The path-resolution algorithm exactly as the specification describes it,
working on segment lists throughout: the base part's directory is its path
with the final (file-name) segment removed; a target that does not start
with dot-dot is joined onto that directory; otherwise each dot-dot segment
pops one directory level and each remaining non-single-dot segment is
appended. -/
def resolvePathSpecC3 (basePath relativePath : String) : String :=
  let dirSegs := (JsStr.splitChar basePath '/').dropLast
  if ¬ JsStr.startsWith relativePath ".." then
    JsStr.joinWith "/" dirSegs ++ "/" ++ relativePath
  else
    let step := fun (acc : List String) (part : String) =>
      if part = ".." then acc.dropLast
      else if part ≠ "." then acc ++ [part]
      else acc
    JsStr.joinWith "/" ((JsStr.splitChar relativePath '/').foldl step dirSegs)

/-! # The Relationship Resolver (RelationshipParser, relationship-parser.ts) -/

/-- Target and type of one relationship entry. -/
structure RelEntry where
  target : String
  type : String
deriving DecidableEq

/-- Insertion-ordered string-keyed map (the JS Map): set updates an existing
key in place or appends a fresh one. -/
abbrev JsMap (β : Type) := List (String × β)

/-- JS Map.prototype.set. -/
def JsMap.setK {β : Type} (m : JsMap β) (k : String) (v : β) : JsMap β :=
  if m.any (fun p => p.1 = k) then m.map (fun p => if p.1 = k then (k, v) else p)
  else m ++ [(k, v)]

/-- JS Map.prototype.get. -/
def JsMap.getK {β : Type} (m : JsMap β) (k : String) : Option β :=
  (m.find? (fun p => p.1 = k)).map (fun p => p.2)

namespace RelationshipParser

/-- RelationshipParser.parse: walk Relationships/Relationship, keep entries
whose Id attribute is truthy, silently skip the rest. -/
def parse (xml : JSVal) (_basePath : String) : JsMap RelEntry :=
  if ¬ xml.truthy then []
  else
    let rels := xml.idx "Relationships"
    if ¬ rels.truthy then []
    else
      let relList := XMLParser.ensureArray (rels.idx "Relationship")
      relList.foldl
        (fun relationships rel =>
          let id := XMLParser.getAttr rel "Id"
          let type := (XMLParser.getAttr rel "Type").strOr ""
          let target := (XMLParser.getAttr rel "Target").strOr ""
          if id.truthy then relationships.setK id.toStr { target := target, type := type }
          else relationships)
        []

end RelationshipParser

/-! # The Theme Resolver (ThemeParser, src/unnamed/part_005) -/

/-- The Color entries a ColorScheme holds ({type, value, alpha}). -/
structure ColorT where
  type : String
  value : String
  alpha : Option (Option Int) := none
deriving DecidableEq

/-- The 12 fixed color-scheme slots. -/
structure ColorSchemeColors where
  dk1 : ColorT
  lt1 : ColorT
  dk2 : ColorT
  lt2 : ColorT
  accent1 : ColorT
  accent2 : ColorT
  accent3 : ColorT
  accent4 : ColorT
  accent5 : ColorT
  accent6 : ColorT
  hlink : ColorT
  folHlink : ColorT
deriving DecidableEq

structure ColorScheme where
  name : String
  colors : ColorSchemeColors
deriving DecidableEq

/-- Font properties; attribute stores are modelled as Option String (the
parsed XML always holds strings there). -/
structure FontProperties where
  typeface : Option String := none
  panose : Option String := none
  pitchFamily : Option Int := none
  charset : Option Int := none
deriving DecidableEq

structure FontCollection where
  latin : FontProperties
  eastAsian : FontProperties
  complexScript : FontProperties
  supplementalFonts : Option (List (String × String)) := none
deriving DecidableEq

structure FontScheme where
  name : String
  majorFont : FontCollection
  minorFont : FontCollection
deriving DecidableEq

structure GradStop where
  position : Int
  color : ColorT
deriving DecidableEq

/-- Fill variants produced by the theme's format-scheme lists. -/
inductive FillT where
  | solid (c : Option ColorT)
  | gradient (angle : Rat) (stops : List GradStop)

structure LineStyleT where
  width : Int
  fill : Option FillT := none
  dashType : String
  capType : Option String := none
  joinType : Option String := none

structure ShadowT where
  type : String
  color : ColorT
  blurRadius : Int
  distance : Int
  direction : Rat

structure GlowT where
  color : ColorT
  radius : Int

structure EffectsT where
  shadow : Option ShadowT := none
  glow : Option GlowT := none

structure FormatScheme where
  name : String
  fillStyles : List FillT
  lineStyles : List LineStyleT
  effectStyles : List EffectsT
  backgroundFills : List FillT

structure ThemeM where
  name : String
  colorScheme : ColorScheme
  fontScheme : FontScheme
  formatScheme : FormatScheme

namespace ThemeParser

open XMLParser

/-- The per-slot closure inside ThemeParser.parseColorScheme: parse the
slot's nested color, fall back to the fixed rgb black when parsing fails. -/
def parseThemeColor (clrScheme : JSVal) (name : String) : ColorT :=
  let element := getChild clrScheme name
  match parseColor element with
  | some color => { type := color.type, value := color.value, alpha := color.alpha }
  | none => { type := "rgb", value := "#000000" }

/-- ThemeParser.parseColorScheme. -/
def parseColorScheme (clrScheme : JSVal) : ColorScheme :=
  { name := (getAttr clrScheme "name").strOr "Default"
    colors :=
      { dk1 := parseThemeColor clrScheme "dk1"
        lt1 := parseThemeColor clrScheme "lt1"
        dk2 := parseThemeColor clrScheme "dk2"
        lt2 := parseThemeColor clrScheme "lt2"
        accent1 := parseThemeColor clrScheme "accent1"
        accent2 := parseThemeColor clrScheme "accent2"
        accent3 := parseThemeColor clrScheme "accent3"
        accent4 := parseThemeColor clrScheme "accent4"
        accent5 := parseThemeColor clrScheme "accent5"
        accent6 := parseThemeColor clrScheme "accent6"
        hlink := parseThemeColor clrScheme "hlink"
        folHlink := parseThemeColor clrScheme "folHlink" } }

/-- ThemeParser.parseFontProperties. -/
def parseFontProperties (font : JSVal) : Option FontProperties :=
  if ¬ font.truthy then none
  else some
    { typeface := (getAttr font "typeface").asStr
      panose := (getAttr font "panose").asStr
      pitchFamily :=
        (fun n => if n = 0 then none else some n) (JsStr.parseIntD ((getAttr font "pitchFamily").strOr "0"))
      charset :=
        (fun n => if n = 0 then none else some n) (JsStr.parseIntD ((getAttr font "charset").strOr "0")) }

/-- ThemeParser.parseFontCollection. -/
def parseFontCollection (fontCollection : JSVal) : FontCollection :=
  let latin := getChild fontCollection "latin"
  let ea := getChild fontCollection "ea"
  let cs := getChild fontCollection "cs"
  let fonts := ensureArray (getChild fontCollection "font")
  let supplementalFonts := fonts.foldl
    (fun acc font =>
      let script := getAttr font "script"
      let typeface := getAttr font "typeface"
      if script.truthy ∧ typeface.truthy then acc ++ [(script.toStr, typeface.toStr)]
      else acc)
    []
  { latin := (parseFontProperties latin).getD { typeface := some "Calibri" }
    eastAsian := (parseFontProperties ea).getD { typeface := some "" }
    complexScript := (parseFontProperties cs).getD { typeface := some "" }
    supplementalFonts := if supplementalFonts.length > 0 then some supplementalFonts else none }

/-- ThemeParser.parseFontScheme. -/
def parseFontScheme (fontScheme : JSVal) : FontScheme :=
  { name := (getAttr fontScheme "name").strOr "Default"
    majorFont := parseFontCollection (getChild fontScheme "majorFont")
    minorFont := parseFontCollection (getChild fontScheme "minorFont") }

/-- Conversion of a ParsedColor into the stored Color shape. -/
def toColorT (color : XMLParser.ParsedColor) : ColorT :=
  { type := color.type, value := color.value, alpha := color.alpha }

/-- ThemeParser.parseFillStyles: all solidFill entries, then all gradFill
entries. -/
def parseFillStyles (fillStyleLst : JSVal) : List FillT :=
  if ¬ fillStyleLst.truthy then []
  else
    let solidFills := ensureArray (getChild fillStyleLst "solidFill")
    let fills := solidFills.foldl
      (fun acc solidFill => acc ++ [FillT.solid ((parseColor solidFill).map toColorT)]) []
    let gradFills := ensureArray (getChild fillStyleLst "gradFill")
    gradFills.foldl
      (fun acc gradFill =>
        let gsLst := getChild gradFill "gsLst"
        let stops := ensureArray (getChild gsLst "gs")
        let gradientStops := stops.map (fun gs =>
          { position := JsStr.parseIntD ((getAttr gs "pos").strOr "0")
            color := ((parseColor gs).map toColorT).getD { type := "rgb", value := "#000000" }
            : GradStop })
        let lin := getChild gradFill "lin"
        let angle := if lin.truthy then parseAngle (getAttr lin "ang") else 0
        acc ++ [FillT.gradient angle gradientStops])
      fills

/-- ThemeParser.parseJoinType. -/
def parseJoinType (ln : JSVal) : Option String :=
  if (getChild ln "bevel").truthy then some "bevel"
  else if (getChild ln "miter").truthy then some "miter"
  else if (getChild ln "round").truthy then some "round"
  else none

/-- ThemeParser.parseLineStyles. -/
def parseLineStyles (lnStyleLst : JSVal) : List LineStyleT :=
  if ¬ lnStyleLst.truthy then []
  else
    let lnElements := ensureArray (getChild lnStyleLst "ln")
    lnElements.foldl
      (fun acc ln =>
        let width := JsStr.parseIntD ((getAttr ln "w").strOr "0")
        let solidFill := getChild ln "solidFill"
        let prstDash := getChild ln "prstDash"
        let fill := if solidFill.truthy then
            some (FillT.solid ((parseColor solidFill).map toColorT))
          else none
        acc ++ [{ width := width
                  fill := fill
                  dashType := (getAttr prstDash "val").strOr "solid"
                  capType := (getAttr ln "cap").asStr
                  joinType := parseJoinType ln : LineStyleT }])
      []

/-- ThemeParser.parseEffectStyles. -/
def parseEffectStyles (effectStyleLst : JSVal) : List EffectsT :=
  if ¬ effectStyleLst.truthy then []
  else
    let effectStyles := ensureArray (getChild effectStyleLst "effectStyle")
    effectStyles.foldl
      (fun acc effectStyle =>
        let effectLst := getChild effectStyle "effectLst"
        let eff : EffectsT :=
          if effectLst.truthy then
            let outerShdw := getChild effectLst "outerShdw"
            let shadow := if outerShdw.truthy then
                some { type := "outer"
                       color := ((parseColor outerShdw).map toColorT).getD { type := "rgb", value := "#000000" }
                       blurRadius := JsStr.parseIntD ((getAttr outerShdw "blurRad").strOr "0")
                       distance := JsStr.parseIntD ((getAttr outerShdw "dist").strOr "0")
                       direction := parseAngle (getAttr outerShdw "dir") }
              else none
            let glow := getChild effectLst "glow"
            let glowE := if glow.truthy then
                some { color := ((parseColor glow).map toColorT).getD { type := "rgb", value := "#FFFF00" }
                       radius := JsStr.parseIntD ((getAttr glow "rad").strOr "0") : GlowT }
              else none
            { shadow := shadow, glow := glowE }
          else {}
        acc ++ [eff])
      []

/-- ThemeParser.parseFormatScheme. -/
def parseFormatScheme (fmtScheme : JSVal) : FormatScheme :=
  { name := (getAttr fmtScheme "name").strOr "Default"
    fillStyles := parseFillStyles (getChild fmtScheme "fillStyleLst")
    lineStyles := parseLineStyles (getChild fmtScheme "lnStyleLst")
    effectStyles := parseEffectStyles (getChild fmtScheme "effectStyleLst")
    backgroundFills := parseFillStyles (getChild fmtScheme "bgFillStyleLst") }

/-- ThemeParser.parse. -/
def parse (xml : JSVal) : ThemeM :=
  let theme := jsOr (jsOr (xml.idx "a:theme") (xml.idx "theme")) xml
  let themeElements := getChild theme "themeElements"
  { name := (getAttr theme "name").strOr "Default Theme"
    colorScheme := parseColorScheme (getChild themeElements "clrScheme")
    fontScheme := parseFontScheme (getChild themeElements "fontScheme")
    formatScheme := parseFormatScheme (getChild themeElements "fmtScheme") }

end ThemeParser

/-! # The built-in default Office palette (ColorResolver, color-resolver.ts) -/

namespace ColorResolver

/-- DEFAULT_THEME_COLORS: the repository's only built-in table of default
Office theme hex values (it lives in the renderer's color resolver, not in
the theme parser). -/
def DEFAULT_THEME_COLORS : List (String × String) :=
  [("dk1", "#000000"), ("lt1", "#FFFFFF"), ("dk2", "#1F497D"), ("lt2", "#EEECE1"),
   ("accent1", "#4472C4"), ("accent2", "#ED7D31"), ("accent3", "#A5A5A5"),
   ("accent4", "#FFC000"), ("accent5", "#5B9BD5"), ("accent6", "#70AD47"),
   ("hlink", "#0563C1"), ("folHlink", "#954F72"),
   ("bg1", "#FFFFFF"), ("bg2", "#EEECE1"), ("tx1", "#000000"), ("tx2", "#1F497D")]

end ColorResolver

/-! # The animation data model (src/packages/core/src/types/index.ts) -/

/-- Duration: a number or the string 'indefinite'. -/
inductive JDur where
  | num (n : Int)
  | indefinite

/-- Repeat count: a number (already divided by 1000) or 'indefinite'. -/
inductive JRep where
  | num (q : Rat)
  | indefinite

/-- A string-or-number payload (the from/to/by fields). -/
inductive StrNum where
  | str (s : String)
  | num (n : Int)

structure AnimationEffect where
  preset : String
  presetClass : String

/-- AnimationNode: the normalized animation-tree node.  Field names follow
the source; begin/from/to/by become beginV/fromVal/toVal/byVal (those words
are reserved or awkward in Lean). -/
structure AnimationNode where
  type : String
  children : Option (List AnimationNode) := none
  beginV : JSVal := .vUndef
  duration : Option JDur := none
  fill : Option String := none
  repeatCount : Option JRep := none
  repeatDuration : Option Int := none
  restart : Option String := none
  acceleration : Option Rat := none
  deceleration : Option Rat := none
  autoReverse : Bool := false
  targetId : Option Int := none
  subTarget : Option String := none
  effect : Option AnimationEffect := none
  attributeName : Option String := none
  fromVal : Option StrNum := none
  toVal : Option StrNum := none
  byVal : Option StrNum := none
  values : Option (List String) := none
  keyTimes : Option (List Rat) := none
  calcMode : Option String := none
  path : Option String := none
  pathEditMode : Option String := none
  colorSpace : Option String := none
  direction : Option String := none
  zoomContents : Bool := false

structure AnimationBuild where
  spId : Option Int := none
  grpId : Option Int := none
  animBg : Option Bool := none
  autoRev : Option Bool := none
  nodeType : Option String := none

structure AnimationSequence where
  concurrent : Option Bool := none
  children : List AnimationNode

structure SlideTiming where
  buildList : Option (List AnimationBuild) := none
  sequenceList : Option (List AnimationSequence) := none

/-! # The Animation Controller (animation-controller.ts): step flattening -/

/-- One playback step: its member nodes and their target shape ids. -/
structure AnimationStep where
  nodes : List AnimationNode
  targetIds : List Int

namespace AnimationController

/-- AnimationController.addStep. -/
def addStep (steps : List AnimationStep) (nodes : List AnimationNode) : List AnimationStep :=
  steps ++ [{ nodes := nodes, targetIds := nodes.filterMap (fun n => n.targetId) }]

/-- AnimationController.processSequence: a 'sequence' node emits one step per
child; a 'parallel' node emits one step holding its children; 'effect' and
'animate' leaves emit a one-node step; everything else emits nothing.  The
children checks mirror the JS truthiness tests (an absent children field is
falsy, any array is truthy). -/
def processSequence (steps0 : List AnimationStep) (nodes : List AnimationNode) : List AnimationStep :=
  nodes.foldl
    (fun steps node =>
      if node.type = "sequence" then
        match node.children with
        | some children => children.foldl (fun s child => addStep s [child]) steps
        | none => steps
      else if node.type = "parallel" then
        match node.children with
        | some children => addStep steps children
        | none => steps
      else if node.type = "effect" ∨ node.type = "animate" then
        addStep steps [node]
      else steps)
    steps0

/-- AnimationController.buildSteps over a slide's (optional) timing. -/
def buildSteps (timing : Option SlideTiming) : List AnimationStep :=
  match timing with
  | none => []
  | some t =>
    match t.sequenceList with
    | none => []
    | some seqs => seqs.foldl (fun steps sequence => processSequence steps sequence.children) []

end AnimationController

/-! # The Timing Controller (TimingController.buildTimeline, src/unnamed/part_003) -/

/-- One timeline entry. -/
structure TimelineItem where
  id : String
  startTime : Int
  duration : Int
  node : AnimationNode
  state : String

namespace TimingController

/-- typeof node.duration === 'number' ? node.duration : 500. -/
def nodeDuration (node : AnimationNode) : Int :=
  match node.duration with
  | some (JDur.num n) => n
  | _ => 500

/-- typeof node.begin === 'string' ? parseInt(node.begin) || 0 : 0. -/
def nodeDelay (node : AnimationNode) : Int :=
  match node.beginV with
  | .vStr s => (JsStr.parseIntJS s).getD 0
  | _ => 0

/-- TimingController.addToTimeline; now stands for Date.now(). -/
def addToTimeline (timeline : List TimelineItem) (now : Int) (node : AnimationNode)
    (startTime duration : Int) : List TimelineItem :=
  let id := "anim_" ++ toString timeline.length ++ "_" ++ toString now
  timeline ++ [{ id := id, startTime := startTime, duration := duration, node := node,
                 state := "pending" }]

/-- TimingController.processNodes, returning the extended timeline and the
running maxEndTime. -/
def processNodes (now : Int) (nodes : List AnimationNode) (timeline0 : List TimelineItem)
    (offset : Int) : List TimelineItem × Int :=
  nodes.foldl
    (fun acc node =>
      let timeline := acc.1
      let maxEndTime := acc.2
      let duration := nodeDuration node
      let delay := nodeDelay node
      let startTime := offset + delay
      if node.type = "sequence" ∧ node.children.isSome then
        let children := node.children.getD []
        let res := children.foldl
          (fun (p : List TimelineItem × Int) child =>
            let childDuration := nodeDuration child
            (addToTimeline p.1 now child p.2 childDuration, p.2 + childDuration))
          (timeline, startTime)
        (res.1, max maxEndTime res.2)
      else if node.type = "parallel" ∧ node.children.isSome then
        let children := node.children.getD []
        let res := children.foldl
          (fun (p : List TimelineItem × Int) child =>
            let childDuration := nodeDuration child
            (addToTimeline p.1 now child startTime childDuration,
             max p.2 (startTime + childDuration)))
          (timeline, startTime)
        (res.1, max maxEndTime res.2)
      else
        (addToTimeline timeline now node startTime duration,
         max maxEndTime (startTime + duration)))
    (timeline0, offset)

/-- TimingController.buildTimeline: walk the sequence list threading the
offset, then sort by startTime (Array.prototype.sort is stable; the numeric
comparator amounts to sorting by non-decreasing startTime). -/
def buildTimeline (now : Int) (timing : SlideTiming) : List TimelineItem :=
  match timing.sequenceList with
  | none => []
  | some seqs =>
    let res := seqs.foldl
      (fun (acc : List TimelineItem × Int) sequence =>
        processNodes now sequence.children acc.1 acc.2)
      ([], 0)
    res.1.mergeSort (fun a b => decide (a.startTime ≤ b.startTime))

end TimingController

/-! # The Animation Timing Builder (AnimationParser, animation-parser.ts) -/

namespace AnimationParser

open XMLParser

mutual

/-- XMLParser.getText (string coercion of text nodes). -/
def getText (v : JSVal) : String :=
  if ¬ v.truthy then ""
  else match v with
    | .vStr s => s
    | .vArr elems => String.join (getTextList elems)
    | other => if ¬ (other.idx "#text").isUndef then (other.idx "#text").toStr else ""

def getTextList : List JSVal → List String
  | [] => []
  | x :: xs => getText x :: getTextList xs

end

/-- AnimationParser.parseDuration; a NaN parse is collapsed to 0 (header
note on number modelling). -/
def parseDuration (dur : JSVal) : Option JDur :=
  if ¬ dur.truthy then none
  else if dur.toStr = "indefinite" then some JDur.indefinite
  else some (JDur.num (JsStr.parseIntD dur.toStr))

/-- AnimationParser.parseRepeatCount (value divided by 1000). -/
def parseRepeatCount (count : JSVal) : Option JRep :=
  if ¬ count.truthy then none
  else if count.toStr = "indefinite" then some JRep.indefinite
  else some (JRep.num ((JsStr.parseIntD count.toStr : Rat) / 1000))

/-- AnimationParser.parseCommonTimingProps, applied as the object spread
does: cTn falsy leaves the node untouched. -/
def withCommonTimingProps (cTn : JSVal) (node : AnimationNode) : AnimationNode :=
  if ¬ cTn.truthy then node
  else
    let stCondLst := getChild cTn "stCondLst"
    let node1 := { node with
      duration := parseDuration (getAttr cTn "dur")
      fill := (getAttr cTn "fill").asStr
      repeatCount := parseRepeatCount (getAttr cTn "repeatCount")
      repeatDuration :=
        (fun n => if n = 0 then none else some n)
          (JsStr.parseIntD ((getAttr cTn "repeatDur").strOr "0"))
      restart := (getAttr cTn "restart").asStr
      acceleration :=
        (fun q => if q = 0 then none else some q)
          ((JsStr.parseIntD ((getAttr cTn "accel").strOr "0") : Rat) / 1000)
      deceleration :=
        (fun q => if q = 0 then none else some q)
          ((JsStr.parseIntD ((getAttr cTn "decel").strOr "0") : Rat) / 1000)
      autoReverse := parseBoolean (getAttr cTn "autoRev") }
    if stCondLst.truthy then
      let cond := getChild stCondLst "cond"
      if cond.truthy then { node1 with beginV := getAttr cond "delay" } else node1
    else node1

/-- AnimationParser.parseTargetElement, applied as the spread does. -/
def withTargetElement (tgtEl : JSVal) (node : AnimationNode) : AnimationNode :=
  if ¬ tgtEl.truthy then node
  else
    let spTgt := getChild tgtEl "spTgt"
    if spTgt.truthy then
      let spId := getAttr spTgt "spid"
      let txEl := getChild spTgt "txEl"
      let node1 := { node with
        targetId := if spId.truthy then some (JsStr.parseIntD spId.toStr) else none }
      if txEl.truthy then
        let pRg := getChild txEl "pRg"
        let charRg := getChild txEl "charRg"
        if pRg.truthy then
          let sub := "p" ++ (getAttr pRg "st").toStr ++ "-" ++ (getAttr pRg "end").toStr
          { node1 with subTarget := some sub }
        else if charRg.truthy then
          let sub := "c" ++ (getAttr charRg "st").toStr ++ "-" ++ (getAttr charRg "end").toStr
          { node1 with subTarget := some sub }
        else node1
      else node1
    else node

/-- AnimationParser.parseBehaviorProps, applied as the spread does. -/
def withBehaviorProps (cBhvr : JSVal) (node : AnimationNode) : AnimationNode :=
  if ¬ cBhvr.truthy then node
  else
    let cTn := getChild cBhvr "cTn"
    let tgtEl := getChild cBhvr "tgtEl"
    let attrNameLst := getChild cBhvr "attrNameLst"
    let node1 := withTargetElement tgtEl (withCommonTimingProps cTn node)
    if attrNameLst.truthy then
      let attrName := getChild attrNameLst "attrName"
      if attrName.truthy then { node1 with attributeName := some (getText attrName) }
      else node1
    else node1

/-- One character of the regex class backslash-w. -/
def isWordChar (c : Char) : Bool := c.isAlphanum || c = '_'

/-- The anchored filter regex of parseEffectFromFilter: a word-character
run, optionally followed by a parenthesized run free of closing parens. -/
def filterRegexMatch (s : String) : Option (String × Option String) :=
  let l := s.data
  let name := l.takeWhile isWordChar
  let rest := l.drop name.length
  if name.isEmpty then none
  else
    match rest with
    | [] => some (String.mk name, none)
    | '(' :: tail =>
      if tail.getLast? = some ')' ∧ tail.dropLast.all (fun c => c ≠ ')') then
        some (String.mk name, some (String.mk tail.dropLast))
      else none
    | _ => none

/-- AnimationParser.parseEffectFromFilter. -/
def parseEffectFromFilter (filter transition : JSVal) : Option AnimationEffect :=
  if ¬ filter.truthy then none
  else
    match filterRegexMatch filter.toStr with
    | none => none
    | some (preset, _params) =>
      some { preset := preset
             presetClass := if transition.toStr = "out" then "exit" else "entrance" }

/-- AnimationParser.parseSetNode. -/
def parseSetNode (set : JSVal) : Option AnimationNode :=
  let cBhvr := getChild set "cBhvr"
  let toE := getChild set "to"
  some { withBehaviorProps cBhvr { type := "set", children := none } with
         toVal := ((getAttr toE "val").asStr).map StrNum.str }

/-- AnimationParser.parseAnimateNode. -/
def parseAnimateNode (anim : JSVal) : Option AnimationNode :=
  let cBhvr := getChild anim "cBhvr"
  let tavLst := getChild anim "tavLst"
  let node := { withBehaviorProps cBhvr { type := "animate", children := none } with
                calcMode := (getAttr anim "calcmode").asStr }
  if tavLst.truthy then
    let tavs := ensureArray (getChild tavLst "tav")
    let res := tavs.foldl
      (fun (acc : List Rat × List String) tav =>
        let tm := getAttr tav "tm"
        let val := getChild tav "val"
        let acc1 := if tm.truthy then
            (acc.1 ++ [((JsStr.parseIntD tm.toStr : Rat) / 100000)], acc.2)
          else acc
        if val.truthy then
          let strVal := jsOr (getAttr val "strVal") (getAttr val "fltVal")
          if strVal.truthy then (acc1.1, acc1.2 ++ [strVal.toStr]) else acc1
        else acc1)
      ([], [])
    some { node with keyTimes := some res.1, values := some res.2 }
  else some node

/-- AnimationParser.parseAnimEffectNode. -/
def parseAnimEffectNode (animEffect : JSVal) : Option AnimationNode :=
  let cBhvr := getChild animEffect "cBhvr"
  let filter := getAttr animEffect "filter"
  let transition := getAttr animEffect "transition"
  some { withBehaviorProps cBhvr { type := "effect", children := none } with
         effect := parseEffectFromFilter filter transition }

/-- AnimationParser.parseAnimColorNode. -/
def parseAnimColorNode (animClr : JSVal) : Option AnimationNode :=
  let cBhvr := getChild animClr "cBhvr"
  let fromE := getChild animClr "from"
  let toE := getChild animClr "to"
  let node := { withBehaviorProps cBhvr { type := "animateColor", children := none } with
                colorSpace := (getAttr animClr "clrSpc").asStr
                direction := (getAttr animClr "dir").asStr }
  let node1 := if fromE.truthy then
      match parseColor fromE with
      | some color => { node with fromVal := some (StrNum.str color.value) }
      | none => node
    else node
  let node2 := if toE.truthy then
      match parseColor toE with
      | some color => { node1 with toVal := some (StrNum.str color.value) }
      | none => node1
    else node1
  some node2

/-- AnimationParser.parseAnimMotionNode. -/
def parseAnimMotionNode (animMotion : JSVal) : Option AnimationNode :=
  let cBhvr := getChild animMotion "cBhvr"
  some { withBehaviorProps cBhvr { type := "animateMotion", children := none } with
         path := (getAttr animMotion "path").asStr
         pathEditMode := (getAttr animMotion "ptsTypes").asStr }

/-- AnimationParser.parseAnimRotationNode; parseInt defaults follow the
source; NaN collapsed to 0 (header note). -/
def parseAnimRotationNode (animRot : JSVal) : Option AnimationNode :=
  let cBhvr := getChild animRot "cBhvr"
  some { withBehaviorProps cBhvr { type := "animateRotation", children := none } with
         byVal := some (StrNum.num (JsStr.parseIntD ((getAttr animRot "by").strOr "0")))
         fromVal := some (StrNum.num (JsStr.parseIntD ((getAttr animRot "from").strOr "0")))
         toVal := some (StrNum.num (JsStr.parseIntD ((getAttr animRot "to").strOr "0"))) }

/-- AnimationParser.parseAnimScaleNode. -/
def parseAnimScaleNode (animScale : JSVal) : Option AnimationNode :=
  let cBhvr := getChild animScale "cBhvr"
  some { withBehaviorProps cBhvr { type := "animateScale", children := none } with
         zoomContents := parseBoolean (getAttr animScale "zoomContents") }

/-- AnimationParser.parseAudioNode. -/
def parseAudioNode (audio : JSVal) : Option AnimationNode :=
  let cMediaNode := getChild audio "cMediaNode"
  let cTn := getChild cMediaNode "cTn"
  let tgtEl := getChild cMediaNode "tgtEl"
  some (withTargetElement tgtEl (withCommonTimingProps cTn { type := "audio", children := none }))

/-- AnimationParser.parseVideoNode. -/
def parseVideoNode (video : JSVal) : Option AnimationNode :=
  let cMediaNode := getChild video "cMediaNode"
  let cTn := getChild cMediaNode "cTn"
  let tgtEl := getChild cMediaNode "tgtEl"
  some (withTargetElement tgtEl (withCommonTimingProps cTn { type := "video", children := none }))

/-- Push a parsed node when the parser produced one (the if (node)
nodes.push(node) pattern). -/
def pushOpt (acc : List AnimationNode) : Option AnimationNode → List AnimationNode
  | some n => acc ++ [n]
  | none => acc

mutual

/-- AnimationParser.parseChildTnLst: drain every matching child of one kind
before the next kind, in the fixed order seq, par, set, anim, animEffect,
animClr, animMotion, animRot, animScale, audio, video. -/
def parseChildTnLst (childTnLst : JSVal) : List AnimationNode :=
  let n1 := drainSeq (ensureArray (getChild childTnLst "seq")) []
  let n2 := drainPar (ensureArray (getChild childTnLst "par")) n1
  let n3 := (ensureArray (getChild childTnLst "set")).foldl
    (fun acc x => pushOpt acc (parseSetNode x)) n2
  let n4 := (ensureArray (getChild childTnLst "anim")).foldl
    (fun acc x => pushOpt acc (parseAnimateNode x)) n3
  let n5 := (ensureArray (getChild childTnLst "animEffect")).foldl
    (fun acc x => pushOpt acc (parseAnimEffectNode x)) n4
  let n6 := (ensureArray (getChild childTnLst "animClr")).foldl
    (fun acc x => pushOpt acc (parseAnimColorNode x)) n5
  let n7 := (ensureArray (getChild childTnLst "animMotion")).foldl
    (fun acc x => pushOpt acc (parseAnimMotionNode x)) n6
  let n8 := (ensureArray (getChild childTnLst "animRot")).foldl
    (fun acc x => pushOpt acc (parseAnimRotationNode x)) n7
  let n9 := (ensureArray (getChild childTnLst "animScale")).foldl
    (fun acc x => pushOpt acc (parseAnimScaleNode x)) n8
  let n10 := (ensureArray (getChild childTnLst "audio")).foldl
    (fun acc x => pushOpt acc (parseAudioNode x)) n9
  (ensureArray (getChild childTnLst "video")).foldl
    (fun acc x => pushOpt acc (parseVideoNode x)) n10
termination_by (sizeOf childTnLst, 2)
decreasing_by
  all_goals simp_wf
  · rcases Nat.lt_or_ge (sizeOf (ensureArray (getChild childTnLst "seq"))) (sizeOf childTnLst) with hlt | hge
    · exact Prod.Lex.left _ _ hlt
    · have hle := XMLParser.sizeOf_ensureArray_getChild childTnLst "seq"
      have heq : sizeOf (ensureArray (getChild childTnLst "seq")) = sizeOf childTnLst := by omega
      rw [heq]
      exact Prod.Lex.right _ (by omega)
  · rcases Nat.lt_or_ge (sizeOf (ensureArray (getChild childTnLst "par"))) (sizeOf childTnLst) with hlt | hge
    · exact Prod.Lex.left _ _ hlt
    · have hle := XMLParser.sizeOf_ensureArray_getChild childTnLst "par"
      have heq : sizeOf (ensureArray (getChild childTnLst "par")) = sizeOf childTnLst := by omega
      rw [heq]
      exact Prod.Lex.right _ (by omega)

/-- The seq drain loop of parseChildTnLst. -/
def drainSeq : List JSVal → List AnimationNode → List AnimationNode
  | [], acc => acc
  | x :: xs, acc =>
    match parseSequenceNode x with
    | some node => drainSeq xs (acc ++ [node])
    | none => drainSeq xs acc
termination_by l acc => (sizeOf l, 1)
decreasing_by
  all_goals simp_wf
  all_goals first
    | exact Prod.Lex.left _ _ (by omega)
    | exact Prod.Lex.right _ (by omega)

/-- The par drain loop of parseChildTnLst. -/
def drainPar : List JSVal → List AnimationNode → List AnimationNode
  | [], acc => acc
  | x :: xs, acc =>
    match parseParNode x with
    | some node => drainPar xs (acc ++ [node])
    | none => drainPar xs acc
termination_by l acc => (sizeOf l, 1)
decreasing_by
  all_goals simp_wf
  all_goals first
    | exact Prod.Lex.left _ _ (by omega)
    | exact Prod.Lex.right _ (by omega)

/-- AnimationParser.parseSequenceNode. -/
def parseSequenceNode (seq : JSVal) : Option AnimationNode :=
  let cTn := XMLParser.getChild seq "cTn"
  if h : cTn.truthy then
    let childTnLst := XMLParser.getChild cTn "childTnLst"
    let children := if h2 : childTnLst.truthy then parseChildTnLst childTnLst else []
    some (withCommonTimingProps cTn { type := "sequence", children := some children })
  else none
termination_by (sizeOf seq, 0)
decreasing_by
  simp_wf
  have hc := XMLParser.sizeOf_getChild_of_truthy seq "cTn" h
  have hc2 := XMLParser.sizeOf_getChild_of_truthy (XMLParser.getChild seq "cTn") "childTnLst" h2
  exact Prod.Lex.left _ _ (by omega)

/-- AnimationParser.parseParNode. -/
def parseParNode (par : JSVal) : Option AnimationNode :=
  let cTn := XMLParser.getChild par "cTn"
  if h : cTn.truthy then
    let childTnLst := XMLParser.getChild cTn "childTnLst"
    let children := if h2 : childTnLst.truthy then parseChildTnLst childTnLst else []
    some (withCommonTimingProps cTn { type := "parallel", children := some children })
  else none
termination_by (sizeOf par, 0)
decreasing_by
  simp_wf
  have hc := XMLParser.sizeOf_getChild_of_truthy par "cTn" h
  have hc2 := XMLParser.sizeOf_getChild_of_truthy (XMLParser.getChild par "cTn") "childTnLst" h2
  exact Prod.Lex.left _ _ (by omega)

end

/-- AnimationParser.parseBuildList: bldP, then bldDgm, then bldChart
entries (the diagram and chart builds carry only spId). -/
def parseBuildList (bldLst : JSVal) : List AnimationBuild :=
  let bldPs := (ensureArray (getChild bldLst "bldP")).map (fun bldP =>
    ({ spId := some (JsStr.parseIntD ((getAttr bldP "spId").strOr "0"))
       grpId := some (JsStr.parseIntD ((getAttr bldP "grpId").strOr "0"))
       animBg := some (parseBoolean (getAttr bldP "animBg"))
       autoRev := some (parseBoolean (getAttr bldP "autoUpdateAnimBg")) } : AnimationBuild))
  let bldDgms := (ensureArray (getChild bldLst "bldDgm")).map (fun bldDgm =>
    ({ spId := some (JsStr.parseIntD ((getAttr bldDgm "spId").strOr "0")) } : AnimationBuild))
  let bldCharts := (ensureArray (getChild bldLst "bldChart")).map (fun bldChart =>
    ({ spId := some (JsStr.parseIntD ((getAttr bldChart "spId").strOr "0")) } : AnimationBuild))
  bldPs ++ bldDgms ++ bldCharts

/-- AnimationParser.parseParallelNode: a main-sequence par entry; null
without a cTn or without a childTnLst. -/
def parseParallelNode (par : JSVal) : Option AnimationSequence :=
  let cTn := getChild par "cTn"
  if ¬ cTn.truthy then none
  else
    let childTnLst := getChild cTn "childTnLst"
    if ¬ childTnLst.truthy then none
    else some { concurrent := some true, children := parseChildTnLst childTnLst }

/-- AnimationParser.parseTimingNodeList: the par nodes of tnLst. -/
def parseTimingNodeList (tnLst : JSVal) : List AnimationSequence :=
  (ensureArray (getChild tnLst "par")).filterMap parseParallelNode

/-- AnimationParser.parseTiming: buildList from bldLst, sequenceList from
tnLst, each key only set when its child is present. -/
def parseTiming (timing : JSVal) : SlideTiming :=
  let tnLst := getChild timing "tnLst"
  let bldLst := getChild timing "bldLst"
  let result : SlideTiming := {}
  let result :=
    if bldLst.truthy then { result with buildList := some (parseBuildList bldLst) } else result
  if tnLst.truthy then { result with sequenceList := some (parseTimingNodeList tnLst) }
  else result


end AnimationParser

/-! # The Text Parser (TextParser, src/packages/core/src/parser/xml-parser.ts) -/

/-- XMLParser.getText: the shared text coercion (defined with the
animation walker above, which uses the same source function). -/
def XMLParser.getText (v : JSVal) : String := AnimationParser.getText v

/-- One gradient stop: raw pos attribute and the parsed color (black
fallback when the stop has no recognized color). -/
structure GradientStop where
  position : Int
  color : XMLParser.ParsedColor

/-- Fill: the five shapes parseFill/parseBackground build.  The gradient
carries the constant type 'linear' of the source literal implicitly. -/
inductive Fill where
  | noneFill
  | solid (solid : Option XMLParser.ParsedColor)
  | gradient (angle : Rat) (stops : List GradientStop)
  | pattern (preset : String) (foregroundColor : XMLParser.ParsedColor)
      (backgroundColor : XMLParser.ParsedColor)
  | picture (embed : String) (stretch : Bool)

/-- number | {percentage} payloads (spacing and bullet sizes); the
percentage is the raw value divided by 1000. -/
inductive NumOrPct where
  | n (v : Int)
  | pct (p : Rat)

/-- FontProperties of a text run or bullet (the theme fonts above keep
the source's FontProperties name): the bullet font keeps
typeface/pitchFamily/charset; the run font adds panose/eastAsia/cs. -/
structure TextFontProperties where
  typeface : JSVal := .vUndef
  panose : JSVal := .vUndef
  pitchFamily : Int := 0
  charset : Int := 0
  eastAsia : Option JSVal := none
  cs : Option JSVal := none

/-- BulletProperties: the four shapes parseBullet builds.  The char-bullet
color is doubly optional: outer none = no buClr child (undefined), inner
none = parseColor returned null. -/
inductive BulletProperties where
  | noneBullet
  | autoNum (startAt : Int)
  | charBullet (char : String) (font : Option TextFontProperties)
      (color : Option (Option XMLParser.ParsedColor)) (size : Option NumOrPct)
  | picBullet (pictureId : JSVal)

structure TabStop where
  position : Int
  alignment : String

structure HyperlinkInfo where
  url : JSVal
  action : JSVal
  tooltip : JSVal

/-- The {width} literal a run's ln child becomes. -/
structure RunLine where
  width : Int

/-- TextRunProperties as parseRunProperties builds them; `x || undefined`
number reads become Option Int with 0 collapsed to none. -/
structure TextRunProperties where
  fontSize : Option Int
  bold : Bool
  italic : Bool
  underline : JSVal
  strike : JSVal
  baseline : Option Int
  spacing : Option Int
  fill : Option Fill
  line : Option RunLine
  font : Option TextFontProperties
  lang : JSVal
  altLang : JSVal
  hyperlink : Option HyperlinkInfo
  highlight : Option (Option XMLParser.ParsedColor)

structure ParagraphProperties where
  alignment : JSVal
  level : Int
  indent : Int
  marginLeft : Int
  marginRight : Int
  spaceBefore : Option NumOrPct
  spaceAfter : Option NumOrPct
  lineSpacing : Option NumOrPct
  bullet : Option BulletProperties
  tabStops : Option (List TabStop)
  defaultRunProperties : Option TextRunProperties

/-- A run: plain text, a line break, or a field (slide number, date). -/
inductive TextRun where
  | text (text : String) (properties : Option TextRunProperties)
  | lineBreak
  | field (text : String) (properties : Option TextRunProperties) (fieldType : JSVal)

structure Paragraph where
  properties : Option ParagraphProperties
  runs : List TextRun
  endProperties : Option TextRunProperties

structure ListStyle where
  level : Int
  bullet : Option BulletProperties
  paragraph : Option ParagraphProperties

structure TextBodyProperties where
  anchor : JSVal
  anchorCenter : Bool
  wrap : JSVal
  leftInset : Int
  rightInset : Int
  topInset : Int
  bottomInset : Int
  columns : Int
  columnSpacing : Int
  rotation : Rat
  vertical : JSVal
  autoFit : String

structure TextBody where
  paragraphs : List Paragraph
  bodyProperties : Option TextBodyProperties
  listStyles : Option (List ListStyle)

namespace TextParser

open XMLParser

/-- TextParser.parseAutoFit. -/
def parseAutoFit (bodyPr : JSVal) : String :=
  if (getChild bodyPr "noAutofit").truthy then "none"
  else if (getChild bodyPr "normAutofit").truthy then "normal"
  else if (getChild bodyPr "spAutoFit").truthy then "shape"
  else "none"

/-- TextParser.parseBodyProperties. -/
def parseBodyProperties (bodyPr : JSVal) : Option TextBodyProperties :=
  if ¬ bodyPr.truthy then none
  else some
    { anchor := getAttr bodyPr "anchor"
      anchorCenter := parseBoolean (getAttr bodyPr "anchorCtr")
      wrap := getAttr bodyPr "wrap"
      leftInset := JsStr.parseIntD ((getAttr bodyPr "lIns").strOr "91440")
      rightInset := JsStr.parseIntD ((getAttr bodyPr "rIns").strOr "91440")
      topInset := JsStr.parseIntD ((getAttr bodyPr "tIns").strOr "45720")
      bottomInset := JsStr.parseIntD ((getAttr bodyPr "bIns").strOr "45720")
      columns := JsStr.parseIntD ((getAttr bodyPr "numCol").strOr "1")
      columnSpacing := JsStr.parseIntD ((getAttr bodyPr "spcCol").strOr "0")
      rotation := parseAngle (getAttr bodyPr "rot")
      vertical := getAttr bodyPr "vert"
      autoFit := parseAutoFit bodyPr }

/-- TextParser.parseSpacing: spcPts before spcPct; the percentage is the
raw val divided by 1000. -/
def parseSpacing (spacing : JSVal) : Option NumOrPct :=
  if ¬ spacing.truthy then none
  else
    let spcPts := getChild spacing "spcPts"
    if spcPts.truthy then some (.n (JsStr.parseIntD ((getAttr spcPts "val").strOr "0")))
    else
      let spcPct := getChild spacing "spcPct"
      if spcPct.truthy then
        some (.pct ((JsStr.parseIntD ((getAttr spcPct "val").strOr "100000") : Rat) / 1000))
      else none

/-- TextParser.parseBulletFont. -/
def parseBulletFont (pPr : JSVal) : Option TextFontProperties :=
  let buFont := getChild pPr "buFont"
  if ¬ buFont.truthy then none
  else some
    { typeface := getAttr buFont "typeface"
      pitchFamily := JsStr.parseIntD ((getAttr buFont "pitchFamily").strOr "0")
      charset := JsStr.parseIntD ((getAttr buFont "charset").strOr "0") }

/-- TextParser.parseBulletColor: undefined without a buClr child, the
parseColor result (possibly null) with one. -/
def parseBulletColor (pPr : JSVal) : Option (Option XMLParser.ParsedColor) :=
  let buClr := getChild pPr "buClr"
  if ¬ buClr.truthy then none else some (parseColor buClr)

/-- TextParser.parseBulletSize: buSzPts before buSzPct. -/
def parseBulletSize (pPr : JSVal) : Option NumOrPct :=
  let buSzPts := getChild pPr "buSzPts"
  if buSzPts.truthy then some (.n (JsStr.parseIntD ((getAttr buSzPts "val").strOr "0")))
  else
    let buSzPct := getChild pPr "buSzPct"
    if buSzPct.truthy then
      some (.pct ((JsStr.parseIntD ((getAttr buSzPct "val").strOr "100000") : Rat) / 1000))
    else none

/-- TextParser.parseBullet: buNone, buAutoNum, buChar, buBlip in that
order. -/
def parseBullet (pPr : JSVal) : Option BulletProperties :=
  if ¬ pPr.truthy then none
  else if (getChild pPr "buNone").truthy then some .noneBullet
  else
    let buAutoNum := getChild pPr "buAutoNum"
    if buAutoNum.truthy then
      some (.autoNum (JsStr.parseIntD ((getAttr buAutoNum "startAt").strOr "1")))
    else
      let buChar := getChild pPr "buChar"
      if buChar.truthy then
        some (.charBullet ((getAttr buChar "char").strOr "•")
          (parseBulletFont pPr) (parseBulletColor pPr) (parseBulletSize pPr))
      else
        let buBlip := getChild pPr "buBlip"
        if buBlip.truthy then
          let blip := getChild buBlip "blip"
          some (.picBullet (jsOr (getAttr blip "r:embed") (getAttr blip "embed")))
        else none

/-- TextParser.parseTabStops. -/
def parseTabStops (pPr : JSVal) : Option (List TabStop) :=
  let tabLst := getChild pPr "tabLst"
  if ¬ tabLst.truthy then none
  else some ((ensureArray (getChild tabLst "tab")).map (fun tab =>
    { position := JsStr.parseIntD ((getAttr tab "pos").strOr "0")
      alignment := (getAttr tab "algn").strOr "left" }))

/-- TextParser.parseHyperlink. -/
def parseHyperlink (hlinkClick : JSVal) : HyperlinkInfo :=
  { url := jsOr (getAttr hlinkClick "r:id") (getAttr hlinkClick "id")
    action := getAttr hlinkClick "action"
    tooltip := getAttr hlinkClick "tooltip" }

/-- The `parseInt(...) || undefined` pattern: 0 (and collapsed NaN) fall
through to undefined. -/
def orUndef (n : Int) : Option Int := if n = 0 then none else some n

/-- TextParser.parseRunProperties. -/
def parseRunProperties (rPr : JSVal) : Option TextRunProperties :=
  if ¬ rPr.truthy then none
  else
    let solidFill := getChild rPr "solidFill"
    let ln := getChild rPr "ln"
    let latin := getChild rPr "latin"
    let ea := getChild rPr "ea"
    let cs := getChild rPr "cs"
    let hlinkClick := getChild rPr "hlinkClick"
    let highlight := getChild rPr "highlight"
    some
      { fontSize := orUndef (JsStr.parseIntD ((getAttr rPr "sz").strOr "0"))
        bold := parseBoolean (getAttr rPr "b")
        italic := parseBoolean (getAttr rPr "i")
        underline := getAttr rPr "u"
        strike := getAttr rPr "strike"
        baseline := orUndef (JsStr.parseIntD ((getAttr rPr "baseline").strOr "0"))
        spacing := orUndef (JsStr.parseIntD ((getAttr rPr "spc").strOr "0"))
        fill := if solidFill.truthy then some (Fill.solid (parseColor solidFill)) else none
        line :=
          if ln.truthy then some { width := JsStr.parseIntD ((getAttr ln "w").strOr "0") }
          else none
        font :=
          if latin.truthy then some
            { typeface := getAttr latin "typeface"
              panose := getAttr latin "panose"
              pitchFamily := JsStr.parseIntD ((getAttr latin "pitchFamily").strOr "0")
              charset := JsStr.parseIntD ((getAttr latin "charset").strOr "0")
              eastAsia := if ea.truthy then some (getAttr ea "typeface") else none
              cs := if cs.truthy then some (getAttr cs "typeface") else none }
          else none
        lang := getAttr rPr "lang"
        altLang := getAttr rPr "altLang"
        hyperlink := if hlinkClick.truthy then some (parseHyperlink hlinkClick) else none
        highlight := if highlight.truthy then some (parseColor highlight) else none }

/-- TextParser.parseParagraphProperties. -/
def parseParagraphProperties (pPr : JSVal) : Option ParagraphProperties :=
  if ¬ pPr.truthy then none
  else
    let spcBef := getChild pPr "spcBef"
    let spcAft := getChild pPr "spcAft"
    let lnSpc := getChild pPr "lnSpc"
    some
      { alignment := getAttr pPr "algn"
        level := JsStr.parseIntD ((getAttr pPr "lvl").strOr "0")
        indent := JsStr.parseIntD ((getAttr pPr "indent").strOr "0")
        marginLeft := JsStr.parseIntD ((getAttr pPr "marL").strOr "0")
        marginRight := JsStr.parseIntD ((getAttr pPr "marR").strOr "0")
        spaceBefore := parseSpacing spcBef
        spaceAfter := parseSpacing spcAft
        lineSpacing := parseSpacing lnSpc
        bullet := parseBullet pPr
        tabStops := parseTabStops pPr
        defaultRunProperties := parseRunProperties (getChild pPr "defRPr") }

/-- TextParser.parseTextRun. -/
def parseTextRun (r : JSVal) : TextRun :=
  let rPr := getChild r "rPr"
  let t := getChild r "t"
  .text (getText t) (parseRunProperties rPr)

/-- TextParser.parseField. -/
def parseField (fld : JSVal) : TextRun :=
  let rPr := getChild fld "rPr"
  let t := getChild fld "t"
  let type := getAttr fld "type"
  .field (getText t) (parseRunProperties rPr) type

/-- TextParser.getOrderedChildren: the r entries, then the br entries,
then the fld entries, each tagged with its kind. -/
def getOrderedChildren (p : JSVal) : List (String × JSVal) :=
  (ensureArray (getChild p "r")).map (fun r => ("r", r)) ++
  (ensureArray (getChild p "br")).map (fun br => ("br", br)) ++
  (ensureArray (getChild p "fld")).map (fun fld => ("fld", fld))

/-- TextParser.parseParagraph. -/
def parseParagraph (p : JSVal) : Paragraph :=
  let pPr := getChild p "pPr"
  let endParaRPr := getChild p "endParaRPr"
  let runs := (getOrderedChildren p).filterMap (fun child =>
    if child.1 = "r" then some (parseTextRun child.2)
    else if child.1 = "br" then some TextRun.lineBreak
    else if child.1 = "fld" then some (parseField child.2)
    else none)
  { properties := parseParagraphProperties pPr
    runs := runs
    endProperties := parseRunProperties endParaRPr }

/-- TextParser.parseListStyles: lvl1pPr .. lvl9pPr. -/
def parseListStyles (lstStyle : JSVal) : Option (List ListStyle) :=
  if ¬ lstStyle.truthy then none
  else
    let styles := (List.range 9).filterMap (fun i =>
      let level : Nat := i + 1
      let lvlPr := getChild lstStyle ("lvl" ++ toString level ++ "pPr")
      if lvlPr.truthy then
        some ({ level := (level : Int) - 1
                bullet := parseBullet lvlPr
                paragraph := parseParagraphProperties lvlPr } : ListStyle)
      else none)
    if styles.length > 0 then some styles else none

/-- TextParser.parseTextBody. -/
def parseTextBody (txBody : JSVal) : TextBody :=
  let bodyPr := getChild txBody "bodyPr"
  let lstStyle := getChild txBody "lstStyle"
  let paragraphs := (ensureArray (getChild txBody "p")).map parseParagraph
  { paragraphs := paragraphs
    bodyProperties := parseBodyProperties bodyPr
    listStyles := parseListStyles lstStyle }

end TextParser

/-! # The Shape Parser (ShapeParser, src/packages/core/src/index.ts) -/

/-- The {id, name, description, hidden} record of
parseNonVisualProperties. -/
structure NonVisualProps where
  id : Int
  name : String
  description : JSVal
  hidden : Bool

structure Offset where
  x : Int
  y : Int

structure Extents where
  width : Int
  height : Int

/-- Transform: the falsy-xfrm branch carries offset/extents only, the
main branch adds rotation and the flips. -/
structure Transform where
  offset : Offset
  extents : Extents
  rotation : Option Rat := none
  flipH : Option Bool := none
  flipV : Option Bool := none

/-- Geometry: a preset with its raw prst attribute and gd-derived adjust
values, or the custom marker (the source constructs an empty-path custom
record). -/
inductive Geometry where
  | preset (prst : JSVal) (adjustValues : Option (JsMap Int))
  | custom

/-- LineStyle: the noFill branch keeps only width and the none fill;
the main branch fills every field. -/
structure LineStyle where
  width : Int
  fill : Option Fill
  dashType : Option String := none
  capType : JSVal := .vUndef
  joinType : Option String := none

/-- The outer shadow: its color copy keeps type/value/alpha only. -/
structure Shadow where
  color : XMLParser.ParsedColor
  blurRadius : Int
  distance : Int
  direction : Rat

structure Glow where
  color : XMLParser.ParsedColor
  radius : Int

structure Effects where
  shadow : Option Shadow := none
  glow : Option Glow := none
  softEdge : Option Int := none

structure PlaceholderInfo where
  type : String
  index : Option Int
  hasCustomPrompt : Bool

structure SrcRect where
  left : Int
  top : Int
  right : Int
  bottom : Int

structure TileInfo where
  tx : Int
  ty : Int
  sx : Int
  sy : Int
  flip : JSVal
  alignment : JSVal

structure BlipFillInfo where
  embed : String
  stretch : Bool
  srcRect : Option SrcRect
  tile : Option TileInfo

structure ShapeData where
  id : Int
  name : String
  description : JSVal
  hidden : Bool
  transform : Transform
  geometry : Option Geometry
  fill : Option Fill
  line : Option LineStyle
  effects : Option Effects
  textBody : Option TextBody
  placeholder : Option PlaceholderInfo

structure PictureData where
  id : Int
  name : String
  description : JSVal
  hidden : Bool
  transform : Transform
  geometry : Option Geometry
  fill : Option Fill
  line : Option LineStyle
  effects : Option Effects
  blipFill : BlipFillInfo
  placeholder : Option PlaceholderInfo

structure TableCol where
  width : Int

structure TableCell where
  text : Option TextBody
  rowSpan : Int
  colSpan : Int
  hMerge : Bool
  vMerge : Bool
  fill : Option Fill
  anchor : JSVal

structure TableRow where
  height : Int
  cells : List TableCell

structure TableData where
  id : Int
  name : String
  description : JSVal
  hidden : Bool
  transform : Transform
  rows : List TableRow
  columns : List TableCol
  tableStyle : JSVal
  firstRow : Bool
  lastRow : Bool
  firstCol : Bool
  lastCol : Bool
  bandRow : Bool
  bandCol : Bool

/-- The basic chart-data literal (series parsing needs the external
chart part). -/
structure ChartData where
  type : String
  series : List JSVal

structure ChartElemData where
  id : Int
  name : String
  description : JSVal
  hidden : Bool
  transform : Transform
  chartData : ChartData
  externalData : String

structure DiagramData where
  id : Int
  name : String
  description : JSVal
  hidden : Bool
  transform : Transform
  layoutType : String
  nodes : List JSVal

structure OleData where
  id : Int
  name : String
  description : JSVal
  hidden : Bool
  transform : Transform
  progId : String

structure ConnectionInfo where
  shapeId : Int
  site : Int

structure ConnectorData where
  id : Int
  name : String
  description : JSVal
  hidden : Bool
  transform : Transform
  geometry : Option Geometry
  line : Option LineStyle
  startConnection : Option ConnectionInfo
  endConnection : Option ConnectionInfo

/-- SlideElement: the union the shape tree holds; the group carries its
children inline. -/
inductive SlideElement where
  | shape (d : ShapeData)
  | picture (d : PictureData)
  | table (d : TableData)
  | chart (d : ChartElemData)
  | diagram (d : DiagramData)
  | ole (d : OleData)
  | group (id : Int) (name : String) (description : JSVal) (hidden : Bool)
      (transform : Transform) (children : List SlideElement) (childTransform : Transform)
  | connector (d : ConnectorData)

namespace ShapeParser

open XMLParser

/-- uri?.includes(s): string inclusion on a string attribute, falsy
otherwise (attributes of the XML object model are strings). -/
def uriIncl (uri : JSVal) (s : String) : Bool :=
  ((uri.asStr).map (fun t => JsStr.includes t s)).getD false

/-- A /val\s+(\d+)/ match attempt anchored at the head of the list:
capture group 1 (the digits) on success. -/
def valFmlaAt (cs : List Char) : Option (List Char) :=
  match cs with
  | 'v' :: 'a' :: 'l' :: rest =>
    let ws := rest.takeWhile JsStr.isWs
    if ws.isEmpty then none
    else
      let ds := (rest.drop ws.length).takeWhile Char.isDigit
      if ds.isEmpty then none else some ds
  | _ => none

/-- The unanchored /val\s+(\d+)/ search: first match wins. -/
def valFmlaScan : List Char → Option (List Char)
  | [] => none
  | c :: cs =>
    match valFmlaAt (c :: cs) with
    | some ds => some ds
    | none => valFmlaScan cs

/-- fmla.match(/val\s+(\d+)/): capture group 1 of the first match. -/
def valFmlaMatch (s : String) : Option String :=
  (valFmlaScan s.data).map (fun ds => String.mk ds)

/-- ShapeParser.parseNonVisualProperties. -/
def parseNonVisualProperties (nvPr : JSVal) : NonVisualProps :=
  let cNvPr := getChild nvPr "cNvPr"
  { id := JsStr.parseIntD ((getAttr cNvPr "id").strOr "0")
    name := (getAttr cNvPr "name").strOr ""
    description := getAttr cNvPr "descr"
    hidden := parseBoolean (getAttr cNvPr "hidden") }

/-- ShapeParser.parseXfrm. -/
def parseXfrm (xfrm : JSVal) : Transform :=
  if ¬ xfrm.truthy then
    { offset := { x := 0, y := 0 }, extents := { width := 0, height := 0 } }
  else
    let off := getChild xfrm "off"
    let ext := getChild xfrm "ext"
    { offset :=
        { x := JsStr.parseIntD ((getAttr off "x").strOr "0")
          y := JsStr.parseIntD ((getAttr off "y").strOr "0") }
      extents :=
        { width := JsStr.parseIntD ((getAttr ext "cx").strOr "0")
          height := JsStr.parseIntD ((getAttr ext "cy").strOr "0") }
      rotation := some (parseAngle (getAttr xfrm "rot"))
      flipH := some (parseBoolean (getAttr xfrm "flipH"))
      flipV := some (parseBoolean (getAttr xfrm "flipV")) }

/-- ShapeParser.parseTransform. -/
def parseTransform (spPr : JSVal) : Transform :=
  parseXfrm (getChild spPr "xfrm")

/-- ShapeParser.parseGeometry. -/
def parseGeometry (spPr : JSVal) : Option Geometry :=
  if ¬ spPr.truthy then none
  else
    let prstGeom := getChild spPr "prstGeom"
    if prstGeom.truthy then
      let prst := getAttr prstGeom "prst"
      let avLst := getChild prstGeom "avLst"
      let adjustValues : JsMap Int :=
        if avLst.truthy then
          (ensureArray (getChild avLst "gd")).foldl
            (fun av gd =>
              let name := getAttr gd "name"
              let fmla := getAttr gd "fmla"
              if name.truthy ∧ fmla.truthy then
                match valFmlaMatch fmla.toStr with
                | some ds => av.setK name.toStr (JsStr.parseIntD ds)
                | none => av
              else av)
            []
        else []
      some (.preset prst (if adjustValues.length > 0 then some adjustValues else none))
    else
      let custGeom := getChild spPr "custGeom"
      if custGeom.truthy then some .custom else none

/-- ShapeParser.parseFill: noFill, solidFill (falling through when its
color is null), gradFill, pattFill, blipFill (with relationship-target
path resolution), then the style's fillRef. -/
def parseFill (spPr : JSVal) (style : JSVal) (relationships : Option (JsMap RelEntry)) :
    Option Fill :=
  if ¬ spPr.truthy then none
  else if (getChild spPr "noFill").truthy then some .noneFill
  else
    let solidFill := getChild spPr "solidFill"
    let solidRes : Option Fill :=
      if solidFill.truthy then
        match parseColor solidFill with
        | some color => some (.solid (some color))
        | none => none
      else none
    match solidRes with
    | some f => some f
    | none =>
      let gradFill := getChild spPr "gradFill"
      if gradFill.truthy then
        let gsLst := getChild gradFill "gsLst"
        let stops := (ensureArray (getChild gsLst "gs")).map (fun gs =>
          ({ position := JsStr.parseIntD ((getAttr gs "pos").strOr "0")
             color := (parseColor gs).getD { type := "rgb", value := "#000000" } } :
            GradientStop))
        let lin := getChild gradFill "lin"
        let angle := if lin.truthy then parseAngle (getAttr lin "ang") else 0
        some (.gradient angle stops)
      else
        let pattFill := getChild spPr "pattFill"
        if pattFill.truthy then
          let fgClr := getChild pattFill "fgClr"
          let bgClr := getChild pattFill "bgClr"
          some (.pattern ((getAttr pattFill "prst").strOr "solid")
            ((parseColor fgClr).getD { type := "rgb", value := "#000000" })
            ((parseColor bgClr).getD { type := "rgb", value := "#FFFFFF" }))
        else
          let blipFill := getChild spPr "blipFill"
          if blipFill.truthy then
            let blip := getChild blipFill "blip"
            let embedId := (jsOr (getAttr blip "r:embed") (getAttr blip "embed")).strOr ""
            let imagePath :=
              match relationships with
              | some rels =>
                if embedId ≠ "" then
                  match rels.getK embedId with
                  | some rel =>
                    if rel.target ≠ "" then
                      if JsStr.startsWith rel.target "../" then
                        "ppt/" ++ JsStr.replaceFirst rel.target "../" ""
                      else if JsStr.startsWith rel.target "ppt/" then rel.target
                      else "ppt/media/" ++ rel.target
                    else embedId
                  | none => embedId
                else embedId
              | none => embedId
            some (.picture imagePath (getChild blipFill "stretch").truthy)
          else if style.truthy then
            let fillRef := getChild style "fillRef"
            if fillRef.truthy then
              let idx := getAttr fillRef "idx"
              match parseColor fillRef with
              | some color => some (.solid (some color))
              | none =>
                if idx.truthy ∧ JsStr.parseIntD idx.toStr > 0 then
                  some (.solid (some
                    ({ type := "scheme", value := "lt1" } : XMLParser.ParsedColor)))
                else none
            else none
          else none

/-- ShapeParser.parseJoinType. -/
def parseJoinType (ln : JSVal) : Option String :=
  if (getChild ln "bevel").truthy then some "bevel"
  else if (getChild ln "miter").truthy then some "miter"
  else if (getChild ln "round").truthy then some "round"
  else none

/-- ShapeParser.parseLine. -/
def parseLine (spPr : JSVal) (style : JSVal) : Option LineStyle :=
  let ln := getChild spPr "ln"
  if ¬ ln.truthy then none
  else
    let width := JsStr.parseIntD ((getAttr ln "w").strOr "0")
    if (getChild ln "noFill").truthy then some { width := width, fill := some .noneFill }
    else
      let fill := parseFill ln .vUndef none
      let prstDash := getChild ln "prstDash"
      let dashType := getAttr prstDash "val"
      some { width := width
             fill := fill
             dashType := some (dashType.strOr "solid")
             capType := getAttr ln "cap"
             joinType := parseJoinType ln }

/-- ShapeParser.parseEffects: outer shadow, glow, soft edge; undefined
when none of the three keys was set. -/
def parseEffects (spPr : JSVal) : Option Effects :=
  let effectLst := getChild spPr "effectLst"
  if ¬ effectLst.truthy then none
  else
    let outerShdw := getChild effectLst "outerShdw"
    let shadow : Option Shadow :=
      if outerShdw.truthy then
        let c : XMLParser.ParsedColor :=
          match parseColor outerShdw with
          | some color => { type := color.type, value := color.value, alpha := color.alpha }
          | none => { type := "rgb", value := "#000000" }
        some { color := c
               blurRadius := JsStr.parseIntD ((getAttr outerShdw "blurRad").strOr "0")
               distance := JsStr.parseIntD ((getAttr outerShdw "dist").strOr "0")
               direction := parseAngle (getAttr outerShdw "dir") }
      else none
    let glowEl := getChild effectLst "glow"
    let glow : Option Glow :=
      if glowEl.truthy then
        let c : XMLParser.ParsedColor :=
          match parseColor glowEl with
          | some color => { type := color.type, value := color.value, alpha := color.alpha }
          | none => { type := "rgb", value := "#FFFF00" }
        some { color := c, radius := JsStr.parseIntD ((getAttr glowEl "rad").strOr "0") }
      else none
    let softEdgeEl := getChild effectLst "softEdge"
    let softEdge : Option Int :=
      if softEdgeEl.truthy then
        some (JsStr.parseIntD ((getAttr softEdgeEl "rad").strOr "0"))
      else none
    if shadow.isSome ∨ glow.isSome ∨ softEdge.isSome then
      some { shadow := shadow, glow := glow, softEdge := softEdge }
    else none

/-- ShapeParser.parsePlaceholder. -/
def parsePlaceholder (nvPr : JSVal) : Option PlaceholderInfo :=
  let nvPrContent := getChild nvPr "nvPr"
  let ph := getChild nvPrContent "ph"
  if ¬ ph.truthy then none
  else
    let type := (getAttr ph "type").strOr "body"
    let idx := getAttr ph "idx"
    some { type := type
           index := if idx.truthy then some (JsStr.parseIntD idx.toStr) else none
           hasCustomPrompt := parseBoolean (getAttr ph "hasCustomPrompt") }

/-- ShapeParser.parseShape. -/
def parseShape (sp : JSVal) (relationships : JsMap RelEntry) : Option SlideElement :=
  if ¬ sp.truthy then none
  else
    let nvSpPr := getChild sp "nvSpPr"
    let spPr := getChild sp "spPr"
    let txBody := getChild sp "txBody"
    let style := getChild sp "style"
    let baseProps := parseNonVisualProperties nvSpPr
    let transform := parseTransform spPr
    let geometry := parseGeometry spPr
    let fill := parseFill spPr style (some relationships)
    let line := parseLine spPr style
    let effects := parseEffects spPr
    let placeholder := parsePlaceholder nvSpPr
    let textBody := if txBody.truthy then some (TextParser.parseTextBody txBody) else none
    some (.shape
      { id := baseProps.id, name := baseProps.name, description := baseProps.description,
        hidden := baseProps.hidden, transform := transform, geometry := geometry,
        fill := fill, line := line, effects := effects, textBody := textBody,
        placeholder := placeholder })

/-- ShapeParser.parsePicture. -/
def parsePicture (pic : JSVal) (relationships : JsMap RelEntry) : Option SlideElement :=
  if ¬ pic.truthy then none
  else
    let nvPicPr := getChild pic "nvPicPr"
    let blipFill := getChild pic "blipFill"
    let spPr := getChild pic "spPr"
    let baseProps := parseNonVisualProperties nvPicPr
    let transform := parseTransform spPr
    let geometry := parseGeometry spPr
    let fill := parseFill spPr .vUndef none
    let line := parseLine spPr .vUndef
    let effects := parseEffects spPr
    let placeholder := parsePlaceholder nvPicPr
    let blip := getChild blipFill "blip"
    let embedId := jsOr (getAttr blip "r:embed") (getAttr blip "embed")
    let embed :=
      if embedId.truthy then
        ((relationships.getK embedId.toStr).map (fun r => r.target)).getD ""
      else ""
    let stretch := getChild blipFill "stretch"
    let tile := getChild blipFill "tile"
    let srcRect := getChild blipFill "srcRect"
    some (.picture
      { id := baseProps.id, name := baseProps.name, description := baseProps.description,
        hidden := baseProps.hidden, transform := transform, geometry := geometry,
        fill := fill, line := line, effects := effects,
        blipFill :=
          { embed := embed
            stretch := stretch.truthy
            srcRect :=
              if srcRect.truthy then some
                { left := JsStr.parseIntD ((getAttr srcRect "l").strOr "0")
                  top := JsStr.parseIntD ((getAttr srcRect "t").strOr "0")
                  right := JsStr.parseIntD ((getAttr srcRect "r").strOr "0")
                  bottom := JsStr.parseIntD ((getAttr srcRect "b").strOr "0") }
              else none
            tile :=
              if tile.truthy then some
                { tx := JsStr.parseIntD ((getAttr tile "tx").strOr "0")
                  ty := JsStr.parseIntD ((getAttr tile "ty").strOr "0")
                  sx := JsStr.parseIntD ((getAttr tile "sx").strOr "100000")
                  sy := JsStr.parseIntD ((getAttr tile "sy").strOr "100000")
                  flip := getAttr tile "flip"
                  alignment := getAttr tile "algn" }
              else none }
        placeholder := placeholder })

/-- ShapeParser.parseTable. -/
def parseTable (graphicData : JSVal) (baseProps : NonVisualProps) (transform : Transform) :
    SlideElement :=
  let tbl := getChild graphicData "tbl"
  let tblPr := getChild tbl "tblPr"
  let tblGrid := getChild tbl "tblGrid"
  let columns := (ensureArray (getChild tblGrid "gridCol")).map (fun col =>
    ({ width := JsStr.parseIntD ((getAttr col "w").strOr "0") } : TableCol))
  let rows := (ensureArray (getChild tbl "tr")).map (fun tr =>
    let height := JsStr.parseIntD ((getAttr tr "h").strOr "0")
    let cells := (ensureArray (getChild tr "tc")).map (fun tc =>
      let tcPr := getChild tc "tcPr"
      let txBody := getChild tc "txBody"
      ({ text := if txBody.truthy then some (TextParser.parseTextBody txBody) else none
         rowSpan := JsStr.parseIntD ((getAttr tc "rowSpan").strOr "1")
         colSpan := JsStr.parseIntD ((getAttr tc "gridSpan").strOr "1")
         hMerge := parseBoolean (getAttr tc "hMerge")
         vMerge := parseBoolean (getAttr tc "vMerge")
         fill := parseFill tcPr .vUndef none
         anchor := getAttr tcPr "anchor" } : TableCell))
    ({ height := height, cells := cells } : TableRow))
  .table
    { id := baseProps.id, name := baseProps.name, description := baseProps.description,
      hidden := baseProps.hidden, transform := transform, rows := rows, columns := columns,
      tableStyle := getAttr tblPr "tableStyleId",
      firstRow := parseBoolean (getAttr tblPr "firstRow"),
      lastRow := parseBoolean (getAttr tblPr "lastRow"),
      firstCol := parseBoolean (getAttr tblPr "firstCol"),
      lastCol := parseBoolean (getAttr tblPr "lastCol"),
      bandRow := parseBoolean (getAttr tblPr "bandRow"),
      bandCol := parseBoolean (getAttr tblPr "bandCol") }

/-- ShapeParser.parseChart. -/
def parseChart (graphicData : JSVal) (baseProps : NonVisualProps) (transform : Transform)
    (relationships : JsMap RelEntry) : SlideElement :=
  let chartRef := getChild graphicData "chart"
  let rId := jsOr (getAttr chartRef "r:id") (getAttr chartRef "id")
  let externalData :=
    if rId.truthy then ((relationships.getK rId.toStr).map (fun r => r.target)).getD ""
    else ""
  .chart
    { id := baseProps.id, name := baseProps.name, description := baseProps.description,
      hidden := baseProps.hidden, transform := transform,
      chartData := { type := "bar", series := [] }, externalData := externalData }

/-- ShapeParser.parseDiagram. -/
def parseDiagram (_graphicData : JSVal) (baseProps : NonVisualProps) (transform : Transform)
    (_relationships : JsMap RelEntry) : SlideElement :=
  .diagram
    { id := baseProps.id, name := baseProps.name, description := baseProps.description,
      hidden := baseProps.hidden, transform := transform,
      layoutType := "unknown", nodes := [] }

/-- ShapeParser.parseOleObject. -/
def parseOleObject (graphicData : JSVal) (baseProps : NonVisualProps) (transform : Transform)
    (_relationships : JsMap RelEntry) : SlideElement :=
  let oleObj := getChild graphicData "oleObj"
  .ole
    { id := baseProps.id, name := baseProps.name, description := baseProps.description,
      hidden := baseProps.hidden, transform := transform,
      progId := (getAttr oleObj "progId").strOr "Unknown" }

/-- ShapeParser.parseGraphicFrame: table, chart, diagram, OLE checks in
that order; null when no graphicData or no branch matches. -/
def parseGraphicFrame (gf : JSVal) (relationships : JsMap RelEntry) : Option SlideElement :=
  if ¬ gf.truthy then none
  else
    let nvGraphicFramePr := getChild gf "nvGraphicFramePr"
    let xfrm := getChild gf "xfrm"
    let graphic := getChild gf "graphic"
    let graphicData := getChild graphic "graphicData"
    if ¬ graphicData.truthy then none
    else
      let uri := getAttr graphicData "uri"
      let baseProps := parseNonVisualProperties nvGraphicFramePr
      let transform := parseXfrm xfrm
      if uriIncl uri "table" ∨ (getChild graphicData "tbl").truthy then
        some (parseTable graphicData baseProps transform)
      else if uriIncl uri "chart" ∨ (getChild graphicData "chart").truthy then
        some (parseChart graphicData baseProps transform relationships)
      else if uriIncl uri "diagram" ∨ (getChild graphicData "relIds").truthy then
        some (parseDiagram graphicData baseProps transform relationships)
      else if uriIncl uri "oleObject" then
        some (parseOleObject graphicData baseProps transform relationships)
      else none

/-- ShapeParser.parseConnector. -/
def parseConnector (cxnSp : JSVal) (relationships : JsMap RelEntry) : Option SlideElement :=
  if ¬ cxnSp.truthy then none
  else
    let nvCxnSpPr := getChild cxnSp "nvCxnSpPr"
    let spPr := getChild cxnSp "spPr"
    let baseProps := parseNonVisualProperties nvCxnSpPr
    let transform := parseTransform spPr
    let geometry := parseGeometry spPr
    let line := parseLine spPr .vUndef
    let cNvCxnSpPr := getChild nvCxnSpPr "cNvCxnSpPr"
    let stCxn := getChild cNvCxnSpPr "stCxn"
    let endCxn := getChild cNvCxnSpPr "endCxn"
    some (.connector
      { id := baseProps.id, name := baseProps.name, description := baseProps.description,
        hidden := baseProps.hidden, transform := transform, geometry := geometry,
        line := line,
        startConnection :=
          if stCxn.truthy then some
            { shapeId := JsStr.parseIntD ((getAttr stCxn "id").strOr "0")
              site := JsStr.parseIntD ((getAttr stCxn "idx").strOr "0") }
          else none
        endConnection :=
          if endCxn.truthy then some
            { shapeId := JsStr.parseIntD ((getAttr endCxn "id").strOr "0")
              site := JsStr.parseIntD ((getAttr endCxn "idx").strOr "0") }
          else none })

mutual

/-- ShapeParser.parseShapeTree: a falsy spTree yields the empty list
(after a console warning); otherwise the sp, pic, graphicFrame, grpSp and
cxnSp children are parsed in that order, skipping nulls. -/
def parseShapeTree (spTree : JSVal) (relationships : JsMap RelEntry) : List SlideElement :=
  if ¬ spTree.truthy then []
  else
    let shapes := (ensureArray (getChild spTree "sp")).filterMap
      (fun sp => parseShape sp relationships)
    let pictures := (ensureArray (getChild spTree "pic")).filterMap
      (fun pic => parsePicture pic relationships)
    let frames := (ensureArray (getChild spTree "graphicFrame")).filterMap
      (fun gf => parseGraphicFrame gf relationships)
    let groups := drainGroups (ensureArray (getChild spTree "grpSp")) relationships
    let connectors := (ensureArray (getChild spTree "cxnSp")).filterMap
      (fun cxn => parseConnector cxn relationships)
    shapes ++ pictures ++ frames ++ groups ++ connectors
termination_by (sizeOf spTree, 1)
decreasing_by
  simp_wf
  rcases Nat.lt_or_ge (sizeOf (ensureArray (getChild spTree "grpSp"))) (sizeOf spTree)
    with hlt | hge
  · exact Prod.Lex.left _ _ hlt
  · have hle := XMLParser.sizeOf_ensureArray_getChild spTree "grpSp"
    have heq : sizeOf (ensureArray (getChild spTree "grpSp")) = sizeOf spTree := by omega
    rw [heq]
    exact Prod.Lex.right _ (by omega)

/-- The grpSp loop of parseShapeTree. -/
def drainGroups (l : List JSVal) (relationships : JsMap RelEntry) : List SlideElement :=
  match l with
  | [] => []
  | grp :: rest =>
    (match parseGroupShape grp relationships with
     | some g => [g]
     | none => []) ++ drainGroups rest relationships
termination_by (sizeOf l, 0)
decreasing_by
  all_goals simp_wf
  all_goals first
    | exact Prod.Lex.left _ _ (by omega)
    | exact Prod.Lex.right _ (by omega)

/-- ShapeParser.parseGroupShape: the group transform reads off.x/ext.cx
dotted attributes with a nested-child fallback; the children come from a
recursive parseShapeTree walk over grpSp itself. -/
def parseGroupShape (grpSp : JSVal) (relationships : JsMap RelEntry) : Option SlideElement :=
  if ¬ grpSp.truthy then none
  else
    let nvGrpSpPr := getChild grpSp "nvGrpSpPr"
    let grpSpPr := getChild grpSp "grpSpPr"
    let baseProps := parseNonVisualProperties nvGrpSpPr
    let xfrm := getChild grpSpPr "xfrm"
    let transform : Transform :=
      { offset :=
          { x := JsStr.parseIntD ((jsOr (getAttr xfrm "off.x")
              (getAttr (getChild xfrm "off") "x")).strOr "0")
            y := JsStr.parseIntD ((jsOr (getAttr xfrm "off.y")
              (getAttr (getChild xfrm "off") "y")).strOr "0") }
        extents :=
          { width := JsStr.parseIntD ((jsOr (getAttr xfrm "ext.cx")
              (getAttr (getChild xfrm "ext") "cx")).strOr "0")
            height := JsStr.parseIntD ((jsOr (getAttr xfrm "ext.cy")
              (getAttr (getChild xfrm "ext") "cy")).strOr "0") }
        rotation := some (parseAngle (getAttr xfrm "rot"))
        flipH := some (parseBoolean (getAttr xfrm "flipH"))
        flipV := some (parseBoolean (getAttr xfrm "flipV")) }
    let childXfrm := getChild xfrm "chOff"
    let childExt := getChild xfrm "chExt"
    let childTransform : Transform :=
      { offset :=
          { x := JsStr.parseIntD ((getAttr childXfrm "x").strOr "0")
            y := JsStr.parseIntD ((getAttr childXfrm "y").strOr "0") }
        extents :=
          { width := JsStr.parseIntD ((getAttr childExt "cx").strOr "0")
            height := JsStr.parseIntD ((getAttr childExt "cy").strOr "0") } }
    let children := parseShapeTree grpSp relationships
    some (.group baseProps.id baseProps.name baseProps.description baseProps.hidden
      transform children childTransform)
termination_by (sizeOf grpSp, 2)
decreasing_by
  simp_wf
  exact Prod.Lex.right _ (by omega)

end

end ShapeParser

/-! # The Slide Parser (SlideParser, src/packages/core/src/index.ts)

The assembler constructs it with the merged default options, so
parseAnimations and parseNotes are both enabled. -/

structure SlideBackground where
  fill : Fill

structure SlideTransition where
  type : String
  duration : Int
  advanceOnClick : Bool
  advanceAfterTime : Option Int

structure SlideNotes where
  elements : List SlideElement

/-- The master's text styles: the raw lvl paragraph-property elements per
style kind. -/
structure TextStyles where
  title : Option (List JSVal)
  body : Option (List JSVal)
  other : Option (List JSVal)

structure Slide where
  id : Int
  index : Nat
  name : JSVal
  hidden : Bool
  layoutId : String
  masterId : String
  background : Option SlideBackground
  elements : List SlideElement
  transition : Option SlideTransition
  timing : Option SlideTiming
  notes : Option SlideNotes

structure SlideLayout where
  id : String
  name : JSVal
  type : String
  masterId : String
  background : Option SlideBackground
  elements : List SlideElement
  showMasterElements : Bool
  showMasterBackground : Bool

/-- SlideMaster: the theme is optional because the assembler passes the
possibly-missing theme through a non-null assertion; layouts start empty
and are filled by the layout pass. -/
structure SlideMaster where
  id : String
  name : JSVal
  theme : Option ThemeM
  background : Option SlideBackground
  elements : List SlideElement
  textStyles : Option TextStyles
  layouts : List SlideLayout

namespace SlideParser

open XMLParser

/-- SlideParser.parseBackground: bgPr's solid, gradient and picture fills
in that order, then the bgRef fallback (whose color copy keeps
type/value/alpha only). -/
def parseBackground (bg : JSVal) : Option SlideBackground :=
  if ¬ bg.truthy then none
  else
    let bgPr := getChild bg "bgPr"
    let bgRef := getChild bg "bgRef"
    let fromBgPr : Option SlideBackground :=
      if bgPr.truthy then
        let solidFill := getChild bgPr "solidFill"
        let gradFill := getChild bgPr "gradFill"
        let blipFill := getChild bgPr "blipFill"
        if solidFill.truthy then
          some { fill := .solid (parseColor solidFill) }
        else if gradFill.truthy then
          let gsLst := getChild gradFill "gsLst"
          let stops := (ensureArray (getChild gsLst "gs")).map (fun gs =>
            ({ position := JsStr.parseIntD ((getAttr gs "pos").strOr "0")
               color := (parseColor gs).getD { type := "rgb", value := "#000000" } } :
              GradientStop))
          let lin := getChild gradFill "lin"
          let angle := if lin.truthy then parseAngle (getAttr lin "ang") else 0
          some { fill := .gradient angle stops }
        else if blipFill.truthy then
          let blip := getChild blipFill "blip"
          let embed := (jsOr (getAttr blip "r:embed") (getAttr blip "embed")).strOr ""
          some { fill := .picture embed (getChild blipFill "stretch").truthy }
        else none
      else none
    match fromBgPr with
    | some r => some r
    | none =>
      if bgRef.truthy then
        let _idx := JsStr.parseIntD ((getAttr bgRef "idx").strOr "0")
        let color := parseColor bgRef
        some { fill := .solid (color.map (fun c =>
          ({ type := c.type, value := c.value, alpha := c.alpha } :
            XMLParser.ParsedColor))) }
      else none

/-- The transition-type probe list of getTransitionType. -/
def transitionTypes : List String :=
  ["fade", "push", "wipe", "split", "blinds", "checker", "circle", "comb",
   "cover", "cut", "diamond", "dissolve", "newsflash", "plus", "pull",
   "random", "randomBar", "strips", "wedge", "wheel", "zoom",
   "conveyor", "doors", "fall", "ferris", "flip", "flythrough", "gallery",
   "glitter", "honeycomb", "morph", "orbit", "origami", "pan", "prism",
   "reveal", "ripple", "rotate", "shred", "switch", "vortex", "warp",
   "window", "wind"]

/-- SlideParser.getTransitionType: the first type whose plain, p: or p14:
child is present; 'none' otherwise. -/
def getTransitionType (transition : JSVal) : String :=
  ((transitionTypes.find? (fun ty =>
      (getChild transition ty).truthy || (getChild transition ("p:" ++ ty)).truthy ||
      (getChild transition ("p14:" ++ ty)).truthy)).getD "none")

/-- SlideParser.getTransitionDuration: the spd switch. -/
def getTransitionDuration (speed : JSVal) : Int :=
  match speed with
  | .vStr "slow" => 1000
  | .vStr "med" => 500
  | .vStr "fast" => 250
  | _ => 500

/-- SlideParser.parseTransition. -/
def parseTransition (transition : JSVal) : SlideTransition :=
  let type := getTransitionType transition
  let _duration := JsStr.parseIntD ((getAttr transition "spd").strOr "0")
  let advClick := parseBoolean (getAttr transition "advClick") true
  let advTm := getAttr transition "advTm"
  { type := type
    duration := getTransitionDuration (getAttr transition "spd")
    advanceOnClick := advClick
    advanceAfterTime := if advTm.truthy then some (JsStr.parseIntD advTm.toStr) else none }

/-- SlideParser.parseNotes. -/
def parseNotes (notesXml : JSVal) (relationships : JsMap RelEntry) : SlideNotes :=
  let notes := jsOr (jsOr (notesXml.idx "p:notes") (notesXml.idx "notes")) notesXml
  let cSld := getChild notes "cSld"
  { elements := ShapeParser.parseShapeTree (getChild cSld "spTree") relationships }

/-- SlideParser.parseTextStyle: the lvl1pPr..lvl9pPr elements present,
undefined when none is. -/
def parseTextStyle (style : JSVal) : Option (List JSVal) :=
  if ¬ style.truthy then none
  else
    let levels := (List.range 9).filterMap (fun i =>
      let lvl := getChild style ("lvl" ++ toString (i + 1) ++ "pPr")
      if lvl.truthy then some lvl else none)
    if levels.length > 0 then some levels else none

/-- SlideParser.parseTextStyles. -/
def parseTextStyles (txStyles : JSVal) : TextStyles :=
  { title := parseTextStyle (getChild txStyles "titleStyle")
    body := parseTextStyle (getChild txStyles "bodyStyle")
    other := parseTextStyle (getChild txStyles "otherStyle") }

/-- SlideParser.parseSlide (options: parseAnimations and parseNotes
enabled, the assembler's defaults). -/
def parseSlide (xml : JSVal) (id : Int) (index : Nat) (layoutId masterId : String)
    (relationships : JsMap RelEntry) (notesXml : JSVal) : Slide :=
  let sld := jsOr (jsOr (xml.idx "p:sld") (xml.idx "sld")) xml
  let cSld := getChild sld "cSld"
  let _clrMapOvr := getChild sld "clrMapOvr"
  let transition := getChild sld "transition"
  let timing := getChild sld "timing"
  let spTree := getChild cSld "spTree"
  let elements := ShapeParser.parseShapeTree spTree relationships
  let bg := getChild cSld "bg"
  let background := parseBackground bg
  let name := getAttr cSld "name"
  let hidden := parseBoolean (getAttr sld "show") true == false
  let slideTransition := if transition.truthy then some (parseTransition transition) else none
  let slideTiming :=
    if timing.truthy then some (AnimationParser.parseTiming timing) else none
  let notes := if notesXml.truthy then some (parseNotes notesXml relationships) else none
  { id := id, index := index, name := name, hidden := hidden,
    layoutId := layoutId, masterId := masterId, background := background,
    elements := elements, transition := slideTransition, timing := slideTiming,
    notes := notes }

/-- SlideParser.parseMaster. -/
def parseMaster (xml : JSVal) (path : String) (theme : Option ThemeM)
    (relationships : JsMap RelEntry) : SlideMaster :=
  let sldMaster := jsOr (jsOr (xml.idx "p:sldMaster") (xml.idx "sldMaster")) xml
  let cSld := getChild sldMaster "cSld"
  let _clrMap := getChild sldMaster "clrMap"
  let txStyles := getChild sldMaster "txStyles"
  let spTree := getChild cSld "spTree"
  let elements := ShapeParser.parseShapeTree spTree relationships
  let bg := getChild cSld "bg"
  let background := parseBackground bg
  let name := getAttr cSld "name"
  let textStyles := if txStyles.truthy then some (parseTextStyles txStyles) else none
  { id := path, name := name, theme := theme, background := background,
    elements := elements, textStyles := textStyles, layouts := [] }

/-- SlideParser.parseLayout. -/
def parseLayout (xml : JSVal) (path : String) (masterId : String)
    (relationships : JsMap RelEntry) : SlideLayout :=
  let sldLayout := jsOr (jsOr (xml.idx "p:sldLayout") (xml.idx "sldLayout")) xml
  let cSld := getChild sldLayout "cSld"
  let spTree := getChild cSld "spTree"
  let elements := ShapeParser.parseShapeTree spTree relationships
  let bg := getChild cSld "bg"
  let background := parseBackground bg
  let name := getAttr cSld "name"
  let type := (getAttr sldLayout "type").strOr "custom"
  let showMasterSp := parseBoolean (getAttr sldLayout "showMasterSp") true
  let showMasterPhAnim := parseBoolean (getAttr sldLayout "showMasterPhAnim") true
  { id := path, name := name, type := type, masterId := masterId,
    background := background, elements := elements,
    showMasterElements := showMasterSp, showMasterBackground := showMasterPhAnim }

end SlideParser


/-! # The Presentation Assembler (PPTXParser, src/unnamed/part_006) -/

/-- One archive member: a part whose text parses as XML (carrying the
parsed object tree), a part whose text fails XML parsing, or a binary
part (whose text also fails XML parsing when read as such). -/
inductive XFile where
  | xml (doc : JSVal)
  | malformed
  | bin

/-- The loaded zip, in entry order (Object.keys order of zip.files). -/
abbrev Archive := List (String × XFile)

/-- A non-fatal warning record. -/
structure Warning where
  code : String
  message : String
  location : Option String := none
deriving DecidableEq

namespace PPTXParser

/-- Look a path up in the archive (zip.file). -/
def zipFile (ar : Archive) (path : String) : Option XFile :=
  (ar.find? (fun p => p.1 = path)).map (fun p => p.2)

/-- The archive's path listing (Object.keys(zip.files)). -/
def zipPaths (ar : Archive) : List String := ar.map (fun p => p.1)

/-- PPTXParser.readXml: a missing part yields a FILE_NOT_FOUND warning and
null; a part whose text does not parse as XML propagates the parse throw. -/
def readXml (ar : Archive) (path : String) (ws : List Warning) :
    Except String (JSVal × List Warning) :=
  match zipFile ar path with
  | none =>
    .ok (.vNull, ws ++ [{ code := "FILE_NOT_FOUND", message := "File not found: " ++ path,
                          location := some path }])
  | some (.xml doc) => .ok (doc, ws)
  | some .malformed => .error ("Failed to parse XML: " ++ path)
  | some .bin => .error ("Failed to parse XML: " ++ path)

/-- A JS property access that throws a TypeError on a nullish receiver
(the unguarded object accesses of the assembler). -/
def memAccess (o : JSVal) (k : String) : Except String JSVal :=
  if o.nullish then .error ("TypeError: cannot read properties of " ++ o.toStr)
  else .ok (o.idx k)

/-- PPTXParser.getRelationshipsPath. -/
def getRelationshipsPath (filePath : String) : String :=
  let parts := JsStr.splitChar filePath '/'
  JsStr.joinWith "/" (parts.dropLast ++ ["_rels", (parts.getLast?.getD "") ++ ".rels"])

/-- The assembler's per-parse mutable state (warnings plus the caches that
reset clears). -/
structure PState where
  warnings : List Warning := []
  contentTypes : JsMap String := []
  relationships : JsMap (JsMap RelEntry) := []
  themes : JsMap ThemeM := []
  masters : JsMap SlideMaster := []
  layouts : JsMap SlideLayout := []

/-- PPTXParser.parseContentTypes. -/
def parseContentTypes (ar : Archive) (st : PState) : Except String PState := do
  let (xml, ws) ← readXml ar "[Content_Types].xml" st.warnings
  if ¬ xml.truthy then .error "Missing [Content_Types].xml"
  else do
    let types := xml.idx "Types"
    let defaultsV ← memAccess types "Default"
    let defaults := XMLParser.ensureArray defaultsV
    let ct1 ← defaults.foldlM
      (fun (ct : JsMap String) dflt => do
        let ext ← memAccess dflt "@_Extension"
        let contentType ← memAccess dflt "@_ContentType"
        if ext.truthy ∧ contentType.truthy then
          pure (ct.setK ("." ++ ext.toStr) contentType.toStr)
        else pure ct)
      st.contentTypes
    let overridesV ← memAccess types "Override"
    let overrides := XMLParser.ensureArray overridesV
    let ct2 ← overrides.foldlM
      (fun (ct : JsMap String) ov => do
        let partName ← memAccess ov "@_PartName"
        let contentType ← memAccess ov "@_ContentType"
        if partName.truthy ∧ contentType.truthy then
          pure (ct.setK partName.toStr contentType.toStr)
        else pure ct)
      ct1
    pure { st with warnings := ws, contentTypes := ct2 }

/-- PPTXParser.parseRelationships (with its per-path cache). -/
def parseRelationshipsM (ar : Archive) (forPath : String) (st : PState) :
    Except String (JsMap RelEntry × PState) :=
  match st.relationships.getK forPath with
  | some cached => .ok (cached, st)
  | none => do
    let relsPath := getRelationshipsPath forPath
    let (xml, ws) ← readXml ar relsPath st.warnings
    let rels := RelationshipParser.parse xml forPath
    pure (rels, { st with warnings := ws,
                          relationships := st.relationships.setK forPath rels })

/-- PPTXParser.parseThemes. -/
def parseThemes (ar : Archive) (st : PState) : Except String PState := do
  let themeFiles := (zipPaths ar).filter
    (fun p => JsStr.startsWith p "ppt/theme/" ∧ JsStr.endsWith p ".xml")
  themeFiles.foldlM
    (fun st themePath => do
      let (xml, ws) ← readXml ar themePath st.warnings
      if xml.truthy then
        pure { st with warnings := ws,
                       themes := st.themes.setK themePath (ThemeParser.parse xml) }
      else pure { st with warnings := ws })
    st

/-- First relationship value whose type contains the marker (the for-of
search loops with break). -/
def findRelByTypePart (rels : JsMap RelEntry) (marker : String) : Option RelEntry :=
  (rels.find? (fun p => JsStr.includes p.2.type marker)).map (fun p => p.2)

/-- SlideParser.parseSlideasters. -/
def parseSlideMasters (ar : Archive) (st : PState) : Except String PState := do
  let masterFiles := (zipPaths ar).filter
    (fun p => JsStr.startsWith p "ppt/slideMasters/" ∧ JsStr.endsWith p ".xml" ∧
      ¬ JsStr.includes p "_rels")
  masterFiles.foldlM
    (fun st masterPath => do
      let (xml, ws) ← readXml ar masterPath st.warnings
      let st := { st with warnings := ws }
      if ¬ xml.truthy then pure st
      else do
        let (rels, st) ← parseRelationshipsM ar masterPath st
        let themeFromRel :=
          match findRelByTypePart rels "theme" with
          | some rel => st.themes.getK (resolvePath masterPath rel.target)
          | none => none
        let theme :=
          match themeFromRel with
          | some t => some t
          | none => (st.themes.head?).map (fun p => p.2)
        let master := SlideParser.parseMaster xml masterPath theme rels
        pure { st with masters := st.masters.setK masterPath master })
    st

/-- PPTXParser.parseSlideLayouts. -/
def parseSlideLayouts (ar : Archive) (st : PState) : Except String PState := do
  let layoutFiles := (zipPaths ar).filter
    (fun p => JsStr.startsWith p "ppt/slideLayouts/" ∧ JsStr.endsWith p ".xml" ∧
      ¬ JsStr.includes p "_rels")
  layoutFiles.foldlM
    (fun st layoutPath => do
      let (xml, ws) ← readXml ar layoutPath st.warnings
      let st := { st with warnings := ws }
      if ¬ xml.truthy then pure st
      else do
        let (rels, st) ← parseRelationshipsM ar layoutPath st
        let masterId :=
          match findRelByTypePart rels "slideMaster" with
          | some rel => resolvePath layoutPath rel.target
          | none => ""
        let layout := SlideParser.parseLayout xml layoutPath masterId rels
        let st := { st with layouts := st.layouts.setK layoutPath layout }
        match st.masters.getK masterId with
        | some master =>
          let updated := { master with layouts := master.layouts ++ [layout] }
          pure { st with masters := st.masters.setK masterId updated }
        | none => pure st)
    st

structure PresPropsM where
  slideWidth : Int
  slideHeight : Int
  firstSlideNumber : Int
  rtl : Bool
  removePersonalInfo : Bool
  embedTrueTypeFonts : Bool
  saveSubsetFonts : Bool
deriving DecidableEq

/-- PPTXParser.parsePresentationProperties; parseInt NaN collapsed to 0
(header note). -/
def parsePresentationProperties (ar : Archive) (st : PState) :
    Except String (PresPropsM × PState) := do
  let (xml, ws) ← readXml ar "ppt/presentation.xml" st.warnings
  if ¬ xml.truthy then .error "Missing presentation.xml"
  else do
    let pres := jsOr (xml.idx "p:presentation") (xml.idx "presentation")
    let a ← memAccess pres "p:sldSz"
    let b ← memAccess pres "sldSz"
    let sldSz := jsOr a b
    let cx := if sldSz.nullish then JSVal.vUndef else sldSz.idx "@_cx"
    let cy := if sldSz.nullish then JSVal.vUndef else sldSz.idx "@_cy"
    let props : PresPropsM :=
      { slideWidth := JsStr.parseIntD (cx.strOr "9144000")
        slideHeight := JsStr.parseIntD (cy.strOr "6858000")
        firstSlideNumber := JsStr.parseIntD ((pres.idx "@_firstSlideNum").strOr "1")
        rtl := (pres.idx "@_rtl").asStr = some "true" ∨ (pres.idx "@_rtl").asStr = some "1"
        removePersonalInfo := (pres.idx "@_removePersonalInfoOnSave").asStr = some "true"
        embedTrueTypeFonts := (pres.idx "@_embedTrueTypeFonts").asStr = some "true"
        saveSubsetFonts := (pres.idx "@_saveSubsetFonts").asStr = some "true" }
    pure (props, { st with warnings := ws })

/-- PPTXParser.extractText. -/
def extractText (element : JSVal) : Option String :=
  if ¬ element.truthy then none
  else match element with
    | .vStr s => some s
    | other => if (other.idx "#text").truthy then some (other.idx "#text").toStr else none

structure MetadataM where
  title : Option String := none
  subject : Option String := none
  creator : Option String := none
  keywords : Option String := none
  description : Option String := none
  lastModifiedBy : Option String := none
  revision : Option Int := none
  category : Option String := none
  contentStatus : Option String := none
  created : Option String := none
  modified : Option String := none
  version : Option String := none
deriving DecidableEq

/-- PPTXParser.parseMetadata (Date construction kept as the raw string). -/
def parseMetadata (ar : Archive) (st : PState) : Except String (MetadataM × PState) := do
  let (coreXml, ws) ← readXml ar "docProps/core.xml" st.warnings
  let md : MetadataM :=
    if coreXml.truthy then
      let props := jsOr (jsOr (coreXml.idx "cp:coreProperties") (coreXml.idx "coreProperties")) coreXml
      let pick := fun (a b : String) => extractText (jsOr (props.idx a) (props.idx b))
      { title := pick "dc:title" "title"
        subject := pick "dc:subject" "subject"
        creator := pick "dc:creator" "creator"
        keywords := pick "cp:keywords" "keywords"
        description := pick "dc:description" "description"
        lastModifiedBy := pick "cp:lastModifiedBy" "lastModifiedBy"
        revision := some (JsStr.parseIntD ((pick "cp:revision" "revision").getD "0"))
        category := pick "cp:category" "category"
        contentStatus := pick "cp:contentStatus" "contentStatus"
        created := pick "dcterms:created" "created"
        modified := pick "dcterms:modified" "modified" }
    else {}
  let (extXml, ws2) ← readXml ar "docProps/app.xml" ws
  let md :=
    if extXml.truthy then
      let props := jsOr (extXml.idx "Properties") extXml
      { md with version := extractText (props.idx "AppVersion") }
    else md
  pure (md, { st with warnings := ws2 })

/-- parseInt applied to a raw JS value (the slide-id read). -/
def parseIntV (v : JSVal) : Int :=
  match v with
  | .vStr s => JsStr.parseIntD s
  | .vNum n => n
  | _ => 0

/-- The body of the per-slide loop inside PPTXParser.parseSlides; returns
the slide list extended when the slide resolves. -/
def processSlide (ar : Archive) (presRels : JsMap RelEntry) (i : Nat) (sldId : JSVal)
    (acc : List Slide × PState) : Except String (List Slide × PState) := do
  let (slides, st) := acc
  let idV ← memAccess sldId "@_id"
  let slideId := parseIntV idV
  let rId := jsOr (sldId.idx "@_r:id") (sldId.idx "@_rid")
  match rId.asStr.bind (fun k => presRels.getK k) with
  | none => pure (slides, st)
  | some rel => do
    let slidePath := "ppt/" ++ JsStr.replaceFirst rel.target "../" ""
    let (slideXml, ws) ← readXml ar slidePath st.warnings
    let st := { st with warnings := ws }
    if ¬ slideXml.truthy then pure (slides, st)
    else do
      let (slideRels, st) ← parseRelationshipsM ar slidePath st
      let layoutId :=
        match findRelByTypePart slideRels "slideLayout" with
        | some slideRel => resolvePath slidePath slideRel.target
        | none => ""
      let layout := st.layouts.getK layoutId
      let masterId := (layout.map (fun l => l.masterId)).getD ""
      let (notesXml, st) ←
        match findRelByTypePart slideRels "notesSlide" with
        | some slideRel => do
          let notesPath := resolvePath slidePath slideRel.target
          let (nx, ws2) ← readXml ar notesPath st.warnings
          pure (nx, { st with warnings := ws2 })
        | none => pure (JSVal.vNull, st)
      let slide := SlideParser.parseSlide slideXml slideId i layoutId masterId slideRels notesXml
      pure (slides ++ [slide], st)

/-- PPTXParser.parseSlides (default options: parseNotes enabled). -/
def parseSlides (ar : Archive) (st : PState) : Except String (List Slide × PState) := do
  let (presXml, ws) ← readXml ar "ppt/presentation.xml" st.warnings
  let st := { st with warnings := ws }
  if ¬ presXml.truthy then pure ([], st)
  else do
    let pres := jsOr (presXml.idx "p:presentation") (presXml.idx "presentation")
    let a ← memAccess pres "p:sldIdLst"
    let b ← memAccess pres "sldIdLst"
    let sldIdLst := jsOr a b
    if ¬ sldIdLst.truthy then pure ([], st)
    else do
      let sldIds := XMLParser.ensureArray (jsOr (sldIdLst.idx "p:sldId") (sldIdLst.idx "sldId"))
      let (presRels, st) ← parseRelationshipsM ar "ppt/presentation.xml" st
      let res ← (sldIds.enum).foldlM
        (fun acc p => processSlide ar presRels p.1 p.2 acc)
        (([] : List Slide), st)
      pure res

/-- The image/media/font extension whitelists of parseResources. -/
def imageExts : List String :=
  ["png", "jpg", "jpeg", "gif", "bmp", "webp", "svg", "emf", "wmf", "tiff", "tif"]

def mediaExts : List String :=
  ["mp4", "m4v", "mov", "avi", "wmv", "mp3", "m4a", "wav", "wma"]

def fontExts : List String := ["fntdata", "odttf", "ttf", "otf"]

/-- Case-insensitive dotted-extension test (the anchored regex). -/
def hasExt (path : String) (exts : List String) : Bool :=
  exts.any (fun e => JsStr.endsWith (JsStr.toLowerS path) ("." ++ e))

structure ResourcesM where
  images : List String
  media : List String
  embeddings : List String
  themes : JsMap ThemeM
  fonts : List String

/-- PPTXParser.parseResources (default options: eager images, embedded
extraction on); binary payloads are modelled by the paths that carry them. -/
def parseResources (ar : Archive) (st : PState) : ResourcesM :=
  let keys := zipPaths ar
  { images := keys.filter (fun p => JsStr.startsWith p "ppt/media/" ∧ hasExt p imageExts)
    media := keys.filter (fun p => JsStr.startsWith p "ppt/media/" ∧ hasExt p mediaExts)
    embeddings := keys.filter (fun p => JsStr.startsWith p "ppt/embeddings/")
    themes := st.themes
    fonts := keys.filter (fun p => JsStr.startsWith p "ppt/fonts/" ∧ hasExt p fontExts) }

structure PresentationM where
  properties : PresPropsM
  metadata : MetadataM
  masters : List SlideMaster
  slides : List Slide
  resources : ResourcesM

structure ParseResultM where
  presentation : PresentationM
  warnings : List Warning
  errors : List String

/-- PPTXParser.parse: the whole pipeline; any stage throw propagates (the
catch block records the fatal error and rethrows), so an error yields no
partial presentation. -/
def parse (ar : Archive) : Except String ParseResultM := do
  let st0 : PState := {}
  let st1 ← parseContentTypes ar st0
  let (_, st2) ← parseRelationshipsM ar "ppt/presentation.xml" st1
  let st3 ← parseThemes ar st2
  let st4 ← parseSlideMasters ar st3
  let st5 ← parseSlideLayouts ar st4
  let (properties, st6) ← parsePresentationProperties ar st5
  let (metadata, st7) ← parseMetadata ar st6
  let (slides, st8) ← parseSlides ar st7
  let resources := parseResources ar st8
  let presentation : PresentationM :=
    { properties := properties
      metadata := metadata
      masters := st8.masters.map (fun p => p.2)
      slides := slides
      resources := resources }
  pure { presentation := presentation, warnings := st8.warnings, errors := [] }

end PPTXParser

/-! # Claim-support definitions -/

/-- The characters of s strictly before the last occurrence of c (empty when
c does not occur): the common value of the two directory computations. -/
def JsStr.beforeLast (c : Char) : List Char → List Char
  | [] => []
  | x :: xs => if c ∈ xs then x :: JsStr.beforeLast c xs else []

/-- The Relationship element list a relationships document exposes. -/
def RelationshipParser.relElems (xml : JSVal) : List JSVal :=
  if ¬ xml.truthy then []
  else
    let rels := xml.idx "Relationships"
    if ¬ rels.truthy then []
    else XMLParser.ensureArray (rels.idx "Relationship")

/-- The (id, entry) pairs of the elements carrying a truthy Id, in document
order. -/
def RelationshipParser.relPairs (xml : JSVal) : List (String × RelEntry) :=
  (RelationshipParser.relElems xml).filterMap
    (fun rel =>
      let id := XMLParser.getAttr rel "Id"
      if id.truthy then
        some (id.toStr, { target := (XMLParser.getAttr rel "Target").strOr ""
                          type := (XMLParser.getAttr rel "Type").strOr "" })
      else none)

/-- The node kinds parseChildTnLst drains, as an enumeration. -/
inductive TnKind where
  | seq | par | set | anim | animEffect | animClr | animMotion | animRot | animScale
  | audio | video
deriving DecidableEq

namespace TnKind

/-- The child tag each kind drains. -/
def tagOf : TnKind → String
  | .seq => "seq"
  | .par => "par"
  | .set => "set"
  | .anim => "anim"
  | .animEffect => "animEffect"
  | .animClr => "animClr"
  | .animMotion => "animMotion"
  | .animRot => "animRot"
  | .animScale => "animScale"
  | .audio => "audio"
  | .video => "video"

/-- The per-kind node parser. -/
def nodeParserOf : TnKind → JSVal → Option AnimationNode
  | .seq => AnimationParser.parseSequenceNode
  | .par => AnimationParser.parseParNode
  | .set => AnimationParser.parseSetNode
  | .anim => AnimationParser.parseAnimateNode
  | .animEffect => AnimationParser.parseAnimEffectNode
  | .animClr => AnimationParser.parseAnimColorNode
  | .animMotion => AnimationParser.parseAnimMotionNode
  | .animRot => AnimationParser.parseAnimRotationNode
  | .animScale => AnimationParser.parseAnimScaleNode
  | .audio => AnimationParser.parseAudioNode
  | .video => AnimationParser.parseVideoNode

/-- The node type each kind emits. -/
def typeNameOf : TnKind → String
  | .seq => "sequence"
  | .par => "parallel"
  | .set => "set"
  | .anim => "animate"
  | .animEffect => "effect"
  | .animClr => "animateColor"
  | .animMotion => "animateMotion"
  | .animRot => "animateRotation"
  | .animScale => "animateScale"
  | .audio => "audio"
  | .video => "video"

/-- The fixed drain priority order. -/
def kindOrder : List TnKind :=
  [.seq, .par, .set, .anim, .animEffect, .animClr, .animMotion, .animRot, .animScale,
   .audio, .video]

/-- The nodes one kind contributes for a given childTnLst. -/
def segment (k : TnKind) (ctl : JSVal) : List AnimationNode :=
  (XMLParser.ensureArray (XMLParser.getChild ctl (tagOf k))).filterMap (nodeParserOf k)

end TnKind

/-- The steps one node contributes under the single-level flattening the
controller implements: a sequence spreads its children one per step, a
parallel contributes one step of its direct children, an effect/animate leaf
one singleton step, anything else nothing. -/
def AnimationController.stepsOfNode (node : AnimationNode) : List (List AnimationNode) :=
  if node.type = "sequence" then
    match node.children with
    | some children => children.map (fun c => [c])
    | none => []
  else if node.type = "parallel" then
    match node.children with
    | some children => [children]
    | none => []
  else if node.type = "effect" ∨ node.type = "animate" then [[node]]
  else []

/-- A leaf effect node with a target id, for the step-flattening scenarios. -/
def cLeaf (i : Int) : AnimationNode := { type := "effect", children := none, targetId := some i }

/-- A parallel node with three leaf children. -/
def cParallel3 : AnimationNode :=
  { type := "parallel", children := some [cLeaf 1, cLeaf 2, cLeaf 3] }

/-- A sequence node with two children whose second child is cParallel3. -/
def cSeqNested : AnimationNode :=
  { type := "sequence", children := some [cLeaf 0, cParallel3] }

/-- Timing whose top-level sequence holds the nested sequence node: the
flattening claim's quantifier reaches cSeqNested here. -/
def cC1timingNested : SlideTiming :=
  { sequenceList := some [{ children := [cSeqNested] }] }

/-- Timing whose top-level sequence directly holds a leaf and cParallel3. -/
def cC1timingTop : SlideTiming :=
  { sequenceList := some [{ children := [cLeaf 0, cParallel3] }] }

/-- A set node as parsed from an empty object (all behavior defaults). -/
def cC5node : AnimationNode := { type := "set", children := none }

/-- A minimal well-formed archive: content types plus an empty
presentation part. -/
def cC7archive : Archive :=
  [("[Content_Types].xml", .xml (.vObj [("Types", .vObj [])])),
   ("ppt/presentation.xml", .xml (.vObj [("p:presentation", .vObj [])]))]

/-- An archive whose content-type part is present but malformed. -/
def cC7archiveBadCT : Archive := [("[Content_Types].xml", .malformed)]

/-- An archive whose presentation part is present but malformed. -/
def cC7archiveBadPres : Archive :=
  [("[Content_Types].xml", .xml (.vObj [("Types", .vObj [])])),
   ("ppt/presentation.xml", .malformed)]

/-- The relationship map readXml-then-parse yields for a part, when the
companion rels file is absent or well-formed. -/
def PPTXParser.relMapOf (ar : Archive) (path : String) : JsMap RelEntry :=
  RelationshipParser.parse
    (match PPTXParser.zipFile ar (PPTXParser.getRelationshipsPath path) with
     | some (.xml d) => d
     | _ => .vNull)
    path

/-- A slide-id element wired to relationship rId1. -/
def cC8sldId : JSVal := .vObj [("@_id", .vStr "1"), ("@_r:id", .vStr "rId1")]

/-- Presentation relationships mapping rId1 to a slide part. -/
def cC8presRels : JsMap RelEntry :=
  [("rId1", { target := "slides/slide1.xml", type := "slide" })]

/-- An archive holding just the slide part (no rels companion, hence no
resolvable layout relationship). -/
def cC8archive : Archive :=
  [("ppt/slides/slide1.xml", .xml (.vObj [("p:sld", .vObj [])]))]

/-- A relationships document whose single Relationship carries an empty Id
attribute. -/
def cC9xml : JSVal :=
  .vObj [("Relationships", .vObj [("Relationship",
    .vArr [.vObj [("@_Id", .vStr ""), ("@_Type", .vStr "T"), ("@_Target", .vStr "t.xml")]])])]

/-- A color element whose srgbClr child carries lumMod 50000 and
lumOff 10000. -/
def cC4elem : JSVal :=
  .vObj [("a:srgbClr", .vObj
    [("@_val", .vStr "FF0000"),
     ("a:lumMod", .vObj [("@_val", .vStr "50000")]),
     ("a:lumOff", .vObj [("@_val", .vStr "10000")])])]

/-- A truthy clrScheme element with no color-slot children at all (so every
slot, accent3 included, misses). -/
def cC2clrScheme : JSVal := .vObj []

/-! # Development: general lemmas and the claim theorems -/

theorem XMLParser.getChild_of_falsy {e : JSVal} (h : e.truthy = false) (n : String) :
    XMLParser.getChild e n = JSVal.vUndef := by
  unfold XMLParser.getChild
  simp [h]

theorem XMLParser.truthy_of_getChild_truthy {e : JSVal} {n : String}
    (h : (XMLParser.getChild e n).truthy = true) : e.truthy = true := by
  by_contra hc
  have hf : e.truthy = false := by
    cases hb : e.truthy
    · rfl
    · exact absurd hb hc
  rw [XMLParser.getChild_of_falsy hf n] at h
  simp [JSVal.truthy] at h

/-- C6, corrected by this input: the empty string is a scalar, yet
ensureArray maps it to the empty sequence instead of wrapping it. -/
theorem spec2proof_c6_counterexample :
    XMLParser.ensureArray (JSVal.vStr "") = [] ∧
    ([] : List JSVal) ≠ [JSVal.vStr ""] := by
  constructor
  · rfl
  · simp

/-- C6 (amended): ensureArray yields the empty sequence for absent values
(undefined or null) and for every other falsy input (such as the empty
string, 0 or false); it passes every sequence through unchanged; and it
wraps every truthy scalar into a one-element sequence. -/
theorem spec2proof_c6 :
    (XMLParser.ensureArray JSVal.vUndef = [] ∧ XMLParser.ensureArray JSVal.vNull = []) ∧
    (∀ xs : List JSVal, XMLParser.ensureArray (JSVal.vArr xs) = xs) ∧
    (∀ v : JSVal, v.truthy = true → (∀ xs, v ≠ JSVal.vArr xs) →
      XMLParser.ensureArray v = [v]) ∧
    (∀ v : JSVal, v.truthy = false → XMLParser.ensureArray v = []) := by
  refine ⟨⟨rfl, rfl⟩, ?_, ?_, ?_⟩
  · intro xs
    simp [XMLParser.ensureArray, JSVal.truthy]
  · intro v ht hnot
    unfold XMLParser.ensureArray
    rw [ht]
    cases v with
    | vArr xs => exact absurd rfl (hnot xs)
    | vUndef => simp [JSVal.truthy] at ht
    | vNull => simp [JSVal.truthy] at ht
    | vBool b => simp
    | vNum n => simp
    | vStr s => simp
    | vObj fs => simp
  · intro v hf
    unfold XMLParser.ensureArray
    simp [hf]

theorem spec2proof_c6_witness :
    (JSVal.vStr "x").truthy = true ∧ XMLParser.ensureArray (JSVal.vStr "x") = [JSVal.vStr "x"] := by
  refine ⟨by decide, spec2proof_c6.2.2.1 (JSVal.vStr "x") (by decide) ?_⟩
  intro xs h
  cases h

theorem AnimationController.addStep_eq (steps : List AnimationStep) (ns : List AnimationNode) :
    AnimationController.addStep steps ns =
      steps ++ [{ nodes := ns, targetIds := ns.filterMap (fun n => n.targetId) }] := rfl

theorem AnimationController.seqFold_eq (children : List AnimationNode) :
    ∀ steps, children.foldl (fun s c => AnimationController.addStep s [c]) steps =
      steps ++ children.map
        (fun c => { nodes := [c], targetIds := [c].filterMap (fun n => n.targetId) }) := by
  induction children with
  | nil => intro steps; simp
  | cons c rest ih =>
    intro steps
    simp only [List.foldl_cons, List.map_cons]
    rw [ih]
    simp [AnimationController.addStep]

/-- C1 (amended): the controller's flattening is single-level: within each
top-level sequence's child list, a 'sequence' node emits one single-node
step per direct child (without recursive expansion), a 'parallel' node
emits exactly one step whose members are its direct children, an
'effect'/'animate' leaf emits one single-node step, and every other node
kind (including 'set') emits nothing.  In particular a top-level sequence
whose children are one leaf and a parallel node with three leaf children
yields exactly 2 steps whose member counts are 1 and 3. -/
theorem spec2proof_c1 :
    (∀ (steps : List AnimationStep) (nodes : List AnimationNode),
      AnimationController.processSequence steps nodes =
        steps ++ ((nodes.map AnimationController.stepsOfNode).join).map
          (fun ns => { nodes := ns, targetIds := ns.filterMap (fun n => n.targetId) })) ∧
    ((AnimationController.buildSteps (some cC1timingTop)).map (fun s => s.nodes.length) = [1, 3]) := by
  constructor
  · intro steps nodes
    induction nodes generalizing steps with
    | nil => simp [AnimationController.processSequence]
    | cons n rest ih =>
      have hstep : (fun steps node =>
          if node.type = "sequence" then
            match node.children with
            | some children =>
              children.foldl (fun s child => AnimationController.addStep s [child]) steps
            | none => steps
          else if node.type = "parallel" then
            match node.children with
            | some children => AnimationController.addStep steps children
            | none => steps
          else if node.type = "effect" ∨ node.type = "animate" then
            AnimationController.addStep steps [node]
          else steps) steps n =
          steps ++ (AnimationController.stepsOfNode n).map
            (fun ns => { nodes := ns, targetIds := ns.filterMap (fun m => m.targetId) }) := by
        simp only [AnimationController.stepsOfNode]
        by_cases h1 : n.type = "sequence"
        · simp only [h1, if_true]
          cases n.children with
          | some children =>
            dsimp only
            rw [AnimationController.seqFold_eq]
            simp [List.map_map]
          | none => dsimp only; simp
        · simp only [h1, if_false]
          by_cases h2 : n.type = "parallel"
          · simp only [h2, if_true]
            cases n.children with
            | some children => dsimp only; simp [AnimationController.addStep]
            | none => dsimp only; simp
          · simp only [h2, if_false]
            by_cases h3 : n.type = "effect" ∨ n.type = "animate"
            · simp [h3, AnimationController.addStep]
            · simp [h3]
      show List.foldl _ _ (n :: rest) = _
      rw [List.foldl_cons]
      have := ih ((fun steps node =>
          if node.type = "sequence" then
            match node.children with
            | some children =>
              children.foldl (fun s child => AnimationController.addStep s [child]) steps
            | none => steps
          else if node.type = "parallel" then
            match node.children with
            | some children => AnimationController.addStep steps children
            | none => steps
          else if node.type = "effect" ∨ node.type = "animate" then
            AnimationController.addStep steps [node]
          else steps) steps n)
      rw [show AnimationController.processSequence = fun s l => List.foldl _ s l from rfl] at ih
      simp only [List.map_cons, List.join]
      rw [AnimationController.processSequence] at this
      calc List.foldl _ _ rest = _ := this
      _ = _ := by rw [hstep]; simp [List.append_assoc]
  · rfl

/-- C1 is corrected by this input: the quantified scenario node cSeqNested
(a sequence with two children, the second a parallel of three leaves) sits
one level down; buildSteps then emits 2 steps but the second holds the
parallel node itself as its only member, not 3 concurrent members. -/
theorem spec2proof_c1_counterexample :
    (AnimationController.buildSteps (some cC1timingNested)).length = 2 ∧
    ((AnimationController.buildSteps (some cC1timingNested)).map (fun s => s.nodes.length) = [1, 1]) ∧
    (1 : Nat) ≠ 3 := ⟨rfl, rfl, by decide⟩

/-- C2 is corrected by this input: a theme part with no accent3 child gets
the fixed black fallback, not the Office-palette entry the repository keeps
in its color resolver (DEFAULT_THEME_COLORS maps accent3 to A5A5A5). -/
theorem spec2proof_c2_counterexample :
    (ThemeParser.parseColorScheme cC2clrScheme).colors.accent3 =
      { type := "rgb", value := "#000000", alpha := none } ∧
    JsMap.getK ColorResolver.DEFAULT_THEME_COLORS "accent3" = some "#A5A5A5" ∧
    ("#000000" : String) ≠ "#A5A5A5" := by
  refine ⟨rfl, rfl, by decide⟩

/-- C2 (amended): every theme part yields a ColorScheme with all 12 fixed
slots populated, each slot read by its fixed name; a slot whose child is
missing or carries no recognized color falls back to the fixed color
rgb #000000 (the same for every slot), not to the per-slot default Office
palette. -/
theorem spec2proof_c2 :
    (∀ clrScheme name, XMLParser.parseColor (XMLParser.getChild clrScheme name) = none →
      ThemeParser.parseThemeColor clrScheme name =
        { type := "rgb", value := "#000000", alpha := none }) ∧
    (∀ clrScheme, (ThemeParser.parseColorScheme clrScheme).colors =
      { dk1 := ThemeParser.parseThemeColor clrScheme "dk1"
        lt1 := ThemeParser.parseThemeColor clrScheme "lt1"
        dk2 := ThemeParser.parseThemeColor clrScheme "dk2"
        lt2 := ThemeParser.parseThemeColor clrScheme "lt2"
        accent1 := ThemeParser.parseThemeColor clrScheme "accent1"
        accent2 := ThemeParser.parseThemeColor clrScheme "accent2"
        accent3 := ThemeParser.parseThemeColor clrScheme "accent3"
        accent4 := ThemeParser.parseThemeColor clrScheme "accent4"
        accent5 := ThemeParser.parseThemeColor clrScheme "accent5"
        accent6 := ThemeParser.parseThemeColor clrScheme "accent6"
        hlink := ThemeParser.parseThemeColor clrScheme "hlink"
        folHlink := ThemeParser.parseThemeColor clrScheme "folHlink" }) := by
  constructor
  · intro clrScheme name h
    simp [ThemeParser.parseThemeColor, h]
  · intro clrScheme
    rfl

theorem spec2proof_c2_witness :
    ThemeParser.parseThemeColor cC2clrScheme "accent3" =
      { type := "rgb", value := "#000000", alpha := none } :=
  spec2proof_c2.1 cC2clrScheme "accent3" rfl

/-- C4: parseColor carries color modifiers through as raw parseInt values
(no unit conversion): concretely lumMod 50000 / lumOff 10000 survive
unchanged, generally every modifier equals parseColorModifier of the
recognized child, parseColorModifier itself is the raw parse of the val
attribute, and parseColor is null exactly when no recognized color child
(srgbClr, schemeClr, prstClr, hslClr, sysClr) is present. -/
theorem spec2proof_c4 :
    ((XMLParser.parseColor cC4elem).map (fun c => (c.lumMod, c.lumOff)) =
      some (some (some 50000), some (some 10000))) ∧
    (∀ e : JSVal, (XMLParser.getChild e "srgbClr").truthy = true →
      ∃ pc, XMLParser.parseColor e = some pc ∧
        pc.alpha = XMLParser.parseColorModifier (XMLParser.getChild e "srgbClr") "alpha" ∧
        pc.lumMod = XMLParser.parseColorModifier (XMLParser.getChild e "srgbClr") "lumMod" ∧
        pc.lumOff = XMLParser.parseColorModifier (XMLParser.getChild e "srgbClr") "lumOff" ∧
        pc.satMod = XMLParser.parseColorModifier (XMLParser.getChild e "srgbClr") "satMod" ∧
        pc.shade = XMLParser.parseColorModifier (XMLParser.getChild e "srgbClr") "shade" ∧
        pc.tint = XMLParser.parseColorModifier (XMLParser.getChild e "srgbClr") "tint") ∧
    (∀ (x : JSVal) (name s : String), (XMLParser.getChild x name).truthy = true →
      XMLParser.getAttr (XMLParser.getChild x name) "val" = JSVal.vStr s → s ≠ "" →
      XMLParser.parseColorModifier x name = some (JsStr.parseIntJS s)) ∧
    (∀ e : JSVal,
      (XMLParser.getChild e "srgbClr").truthy = false →
      (XMLParser.getChild e "schemeClr").truthy = false →
      (XMLParser.getChild e "prstClr").truthy = false →
      (XMLParser.getChild e "hslClr").truthy = false →
      (XMLParser.getChild e "sysClr").truthy = false →
      XMLParser.parseColor e = none) := by
  refine ⟨rfl, ?_, ?_, ?_⟩
  · intro e h
    have he : e.truthy = true := XMLParser.truthy_of_getChild_truthy h
    refine ⟨XMLParser.parseModifiers (XMLParser.getChild e "srgbClr")
      { type := "rgb", value := "#" ++ (XMLParser.getAttr (XMLParser.getChild e "srgbClr") "val").strOr "000000" },
      ?_, rfl, rfl, rfl, rfl, rfl, rfl⟩
    simp [XMLParser.parseColor, he, h]
  · intro x name s h1 h2 h3
    have hv : (JSVal.vStr s).truthy = true := by simp [JSVal.truthy, h3]
    simp [XMLParser.parseColorModifier, h1, h2, hv, JSVal.toStr]
  · intro e h1 h2 h3 h4 h5
    by_cases he : e.truthy = true
    · simp [XMLParser.parseColor, he, h1, h2, h3, h4, h5]
    · have hf : e.truthy = false := by
        cases hb : e.truthy
        · rfl
        · exact absurd hb he
      simp [XMLParser.parseColor, hf]

theorem spec2proof_c4_witness :
    (∃ pc, XMLParser.parseColor cC4elem = some pc ∧
        pc.alpha = XMLParser.parseColorModifier (XMLParser.getChild cC4elem "srgbClr") "alpha" ∧
        pc.lumMod = XMLParser.parseColorModifier (XMLParser.getChild cC4elem "srgbClr") "lumMod" ∧
        pc.lumOff = XMLParser.parseColorModifier (XMLParser.getChild cC4elem "srgbClr") "lumOff" ∧
        pc.satMod = XMLParser.parseColorModifier (XMLParser.getChild cC4elem "srgbClr") "satMod" ∧
        pc.shade = XMLParser.parseColorModifier (XMLParser.getChild cC4elem "srgbClr") "shade" ∧
        pc.tint = XMLParser.parseColorModifier (XMLParser.getChild cC4elem "srgbClr") "tint") ∧
    XMLParser.parseColorModifier (XMLParser.getChild cC4elem "srgbClr") "lumMod" =
      some (JsStr.parseIntJS "50000") ∧
    XMLParser.parseColor (JSVal.vObj []) = none :=
  ⟨spec2proof_c4.2.1 cC4elem (by decide),
   spec2proof_c4.2.2.1 (XMLParser.getChild cC4elem "srgbClr") "lumMod" "50000"
     (by decide) rfl (by decide),
   spec2proof_c4.2.2.2 (JSVal.vObj []) (by decide) (by decide) (by decide) (by decide) (by decide)⟩

theorem AnimationParser.drainSeq_eq (l : List JSVal) :
    ∀ acc, AnimationParser.drainSeq l acc =
      acc ++ l.filterMap AnimationParser.parseSequenceNode := by
  induction l with
  | nil => intro acc; simp [AnimationParser.drainSeq]
  | cons x xs ih =>
    intro acc
    rw [AnimationParser.drainSeq]
    cases h : AnimationParser.parseSequenceNode x with
    | some node => simp [h, ih]
    | none => simp [h, ih]

theorem AnimationParser.drainPar_eq (l : List JSVal) :
    ∀ acc, AnimationParser.drainPar l acc =
      acc ++ l.filterMap AnimationParser.parseParNode := by
  induction l with
  | nil => intro acc; simp [AnimationParser.drainPar]
  | cons x xs ih =>
    intro acc
    rw [AnimationParser.drainPar]
    cases h : AnimationParser.parseParNode x with
    | some node => simp [h, ih]
    | none => simp [h, ih]

theorem AnimationParser.foldl_pushOpt (g : JSVal → Option AnimationNode) (l : List JSVal) :
    ∀ acc, l.foldl (fun a x => AnimationParser.pushOpt a (g x)) acc = acc ++ l.filterMap g := by
  induction l with
  | nil => intro acc; simp
  | cons x xs ih =>
    intro acc
    rw [List.foldl_cons, ih]
    cases h : g x with
    | some node => simp [AnimationParser.pushOpt, h]
    | none => simp [AnimationParser.pushOpt, h]

theorem AnimationParser.type_withCommonTimingProps (c : JSVal) (n : AnimationNode) :
    (AnimationParser.withCommonTimingProps c n).type = n.type := by
  dsimp only [AnimationParser.withCommonTimingProps]
  repeat' split
  all_goals rfl

theorem AnimationParser.type_withTargetElement (t : JSVal) (n : AnimationNode) :
    (AnimationParser.withTargetElement t n).type = n.type := by
  dsimp only [AnimationParser.withTargetElement]
  repeat' split
  all_goals rfl

theorem AnimationParser.type_withBehaviorProps (c : JSVal) (n : AnimationNode) :
    (AnimationParser.withBehaviorProps c n).type = n.type := by
  dsimp only [AnimationParser.withBehaviorProps]
  repeat' split
  all_goals simp [AnimationParser.type_withTargetElement,
    AnimationParser.type_withCommonTimingProps]

/-- C5: parseChildTnLst drains every matching child of one kind before the
next, in the fixed priority order seq, par, set, anim, animEffect, animClr,
animMotion, animRot, animScale, audio, video — the output is the
concatenation of the per-kind segments in that order, and every node of a
kind's segment carries that kind's node type, so the output is grouped by
kind regardless of how the source interleaved them. -/
theorem spec2proof_c5 :
    (∀ ctl, AnimationParser.parseChildTnLst ctl =
      (TnKind.kindOrder.map (fun k => TnKind.segment k ctl)).join) ∧
    (∀ (k : TnKind) (x : JSVal) (n : AnimationNode),
      TnKind.nodeParserOf k x = some n → n.type = TnKind.typeNameOf k) := by
  constructor
  · intro ctl
    rw [AnimationParser.parseChildTnLst]
    simp only [AnimationParser.drainSeq_eq, AnimationParser.drainPar_eq,
      AnimationParser.foldl_pushOpt]
    simp [TnKind.kindOrder, TnKind.segment, TnKind.tagOf, TnKind.nodeParserOf,
      List.append_assoc]
  · intro k x n h
    cases k with
    | seq =>
      simp only [TnKind.nodeParserOf] at h
      unfold AnimationParser.parseSequenceNode at h
      by_cases hc : (XMLParser.getChild x "cTn").truthy = true
      · simp [hc, Option.some.injEq] at h
        subst h
        simp [AnimationParser.type_withCommonTimingProps, TnKind.typeNameOf]
      · simp [hc] at h
    | par =>
      simp only [TnKind.nodeParserOf] at h
      unfold AnimationParser.parseParNode at h
      by_cases hc : (XMLParser.getChild x "cTn").truthy = true
      · simp [hc, Option.some.injEq] at h
        subst h
        simp [AnimationParser.type_withCommonTimingProps, TnKind.typeNameOf]
      · simp [hc] at h
    | set =>
      simp only [TnKind.nodeParserOf, AnimationParser.parseSetNode, Option.some.injEq] at h
      subst h
      simp [AnimationParser.type_withBehaviorProps, TnKind.typeNameOf]
    | anim =>
      simp only [TnKind.nodeParserOf, AnimationParser.parseAnimateNode] at h
      split at h
      · cases h with
        | refl => simp [AnimationParser.type_withBehaviorProps, TnKind.typeNameOf]
      · cases h with
        | refl => simp [AnimationParser.type_withBehaviorProps, TnKind.typeNameOf]
    | animEffect =>
      simp only [TnKind.nodeParserOf, AnimationParser.parseAnimEffectNode,
        Option.some.injEq] at h
      subst h
      simp [AnimationParser.type_withBehaviorProps, TnKind.typeNameOf]
    | animClr =>
      simp only [TnKind.nodeParserOf, AnimationParser.parseAnimColorNode,
        Option.some.injEq] at h
      subst h
      repeat' split
      all_goals simp [AnimationParser.type_withBehaviorProps, TnKind.typeNameOf]
    | animMotion =>
      simp only [TnKind.nodeParserOf, AnimationParser.parseAnimMotionNode,
        Option.some.injEq] at h
      subst h
      simp [AnimationParser.type_withBehaviorProps, TnKind.typeNameOf]
    | animRot =>
      simp only [TnKind.nodeParserOf, AnimationParser.parseAnimRotationNode,
        Option.some.injEq] at h
      subst h
      simp [AnimationParser.type_withBehaviorProps, TnKind.typeNameOf]
    | animScale =>
      simp only [TnKind.nodeParserOf, AnimationParser.parseAnimScaleNode,
        Option.some.injEq] at h
      subst h
      simp [AnimationParser.type_withBehaviorProps, TnKind.typeNameOf]
    | audio =>
      simp only [TnKind.nodeParserOf, AnimationParser.parseAudioNode,
        Option.some.injEq] at h
      subst h
      simp [AnimationParser.type_withTargetElement,
        AnimationParser.type_withCommonTimingProps, TnKind.typeNameOf]
    | video =>
      simp only [TnKind.nodeParserOf, AnimationParser.parseVideoNode,
        Option.some.injEq] at h
      subst h
      simp [AnimationParser.type_withTargetElement,
        AnimationParser.type_withCommonTimingProps, TnKind.typeNameOf]

theorem spec2proof_c5_witness :
    TnKind.nodeParserOf TnKind.set (JSVal.vObj []) = some cC5node ∧
    cC5node.type = TnKind.typeNameOf TnKind.set :=
  ⟨rfl, spec2proof_c5.2 TnKind.set (JSVal.vObj []) cC5node rfl⟩

/-! ## Path-resolution lemmas for C3 -/

theorem JsStr.lastIdx_eq_none_iff (c : Char) (l : List Char) :
    JsStr.lastIdx c l = none ↔ c ∉ l := by
  induction l with
  | nil => simp [JsStr.lastIdx]
  | cons x xs ih =>
    simp only [JsStr.lastIdx]
    cases h : JsStr.lastIdx c xs with
    | some i =>
      simp only []
      constructor
      · intro hc; cases hc
      · intro hc
        exfalso
        have : c ∈ xs := by
          by_contra hm
          rw [← ih] at hm
          rw [hm] at h
          cases h
        exact hc (List.mem_cons_of_mem x this)
    | none =>
      have hnot : c ∉ xs := (ih).mp h
      by_cases hx : x = c
      · simp [hx]
      · simp only [hx, if_false, List.mem_cons]
        constructor
        · intro _ hc
          rcases hc with hc | hc
          · exact hx hc.symm
          · exact hnot hc
        · intro _; trivial

theorem JsStr.take_lastIdx (c : Char) (l : List Char) :
    l.take (match JsStr.lastIdx c l with | some i => i | none => 0) =
      JsStr.beforeLast c l := by
  induction l with
  | nil => simp [JsStr.lastIdx, JsStr.beforeLast]
  | cons x xs ih =>
    simp only [JsStr.lastIdx, JsStr.beforeLast]
    cases h : JsStr.lastIdx c xs with
    | some i =>
      have hmem : c ∈ xs := by
        by_contra hm
        rw [← JsStr.lastIdx_eq_none_iff c xs] at hm
        rw [hm] at h
        cases h
      rw [h] at ih
      simp only [hmem, if_true, List.take_succ_cons]
      rw [ih]
    | none =>
      have hnot : c ∉ xs := (JsStr.lastIdx_eq_none_iff c xs).mp h
      rw [h] at ih
      by_cases hx : x = c
      · simp [hx, hnot]
      · simp [hx, hnot]

theorem JsStr.splitOnCharAux_ne_nil (c : Char) (l : List Char) (acc : List Char) :
    JsStr.splitOnCharAux c l acc ≠ [] := by
  induction l generalizing acc with
  | nil => simp [JsStr.splitOnCharAux]
  | cons x xs ih =>
    simp only [JsStr.splitOnCharAux]
    by_cases hx : x = c
    · simp [hx]
    · simp only [hx, if_false]
      exact ih (x :: acc)

theorem JsStr.splitOnCharAux_acc (c : Char) (l : List Char) :
    ∀ acc, JsStr.splitOnCharAux c l acc =
      (acc.reverse ++ (JsStr.splitOnCharAux c l []).headI) ::
        (JsStr.splitOnCharAux c l []).tail := by
  induction l with
  | nil => intro acc; simp [JsStr.splitOnCharAux]
  | cons x xs ih =>
    intro acc
    by_cases hx : x = c
    · simp [JsStr.splitOnCharAux, hx]
    · simp only [JsStr.splitOnCharAux, hx, if_false]
      rw [ih (x :: acc), ih [x]]
      simp

theorem JsStr.splitOnCharAux_tail_eq_nil_iff (c : Char) (l : List Char) :
    (JsStr.splitOnCharAux c l []).tail = [] ↔ c ∉ l := by
  induction l with
  | nil => simp [JsStr.splitOnCharAux]
  | cons x xs ih =>
    by_cases hx : x = c
    · simp only [JsStr.splitOnCharAux, hx, if_true]
      subst hx
      simp only [List.reverse_nil, List.tail_cons, List.mem_cons]
      constructor
      · intro h
        exact absurd h (JsStr.splitOnCharAux_ne_nil x xs [])
      · intro h
        exact absurd (Or.inl trivial) h
    · simp only [JsStr.splitOnCharAux, hx, if_false]
      rw [JsStr.splitOnCharAux_acc c xs [x]]
      simp only [List.tail_cons, ih, List.mem_cons]
      constructor
      · intro h hc
        rcases hc with hc | hc
        · exact hx hc.symm
        · exact h hc
      · intro h hc
        exact h (Or.inr hc)

theorem JsStr.joinLC_cons_cons (c x : Char) (a : List Char) (rest : List (List Char)) :
    JsStr.joinLC [c] ((x :: a) :: rest) = x :: JsStr.joinLC [c] (a :: rest) := by
  cases rest with
  | nil => rfl
  | cons b bs => simp [JsStr.joinLC]

theorem JsStr.join_dropLast_split (c : Char) (l : List Char) :
    JsStr.joinLC [c] ((JsStr.splitOnCharAux c l []).dropLast) = JsStr.beforeLast c l := by
  induction l with
  | nil => simp [JsStr.splitOnCharAux, JsStr.beforeLast, JsStr.joinLC]
  | cons x xs ih =>
    by_cases hx : x = c
    · subst hx
      simp only [JsStr.splitOnCharAux, if_true, JsStr.beforeLast]
      by_cases hmem : x ∈ xs
      · have htail : (JsStr.splitOnCharAux x xs []).tail ≠ [] := by
          rw [Ne, JsStr.splitOnCharAux_tail_eq_nil_iff]
          simp [hmem]
        have hS : JsStr.splitOnCharAux x xs [] =
            (JsStr.splitOnCharAux x xs []).headI :: (JsStr.splitOnCharAux x xs []).tail := by
          simpa using JsStr.splitOnCharAux_acc x xs []
        rw [List.reverse_nil]
        rw [show ([] : List Char) :: JsStr.splitOnCharAux x xs [] =
          [] :: JsStr.splitOnCharAux x xs [] from rfl]
        have hlen : (JsStr.splitOnCharAux x xs []) ≠ [] := JsStr.splitOnCharAux_ne_nil x xs []
        rw [List.dropLast_cons_of_ne_nil hlen]
        have hdl : (JsStr.splitOnCharAux x xs []).dropLast ≠ [] := by
          rw [hS, List.dropLast_cons_of_ne_nil htail]
          simp
        rw [show JsStr.joinLC [x] ([] :: (JsStr.splitOnCharAux x xs []).dropLast) =
          [] ++ [x] ++ JsStr.joinLC [x] (JsStr.splitOnCharAux x xs []).dropLast from ?_]
        · rw [ih]
          simp [hmem]
        · cases hdl2 : (JsStr.splitOnCharAux x xs []).dropLast with
          | nil => exact absurd hdl2 hdl
          | cons u us => simp [JsStr.joinLC]
      · have htail : (JsStr.splitOnCharAux x xs []).tail = [] := by
          rw [JsStr.splitOnCharAux_tail_eq_nil_iff]
          exact hmem
        have hS : JsStr.splitOnCharAux x xs [] = [(JsStr.splitOnCharAux x xs []).headI] := by
          have h3 := JsStr.splitOnCharAux_acc x xs []
          simp only [List.reverse_nil, List.nil_append] at h3
          rw [htail] at h3
          simpa using h3
        rw [List.reverse_nil]
        rw [hS]
        simp [JsStr.joinLC, hmem]
    · simp only [JsStr.splitOnCharAux, hx, if_false, JsStr.beforeLast]
      rw [JsStr.splitOnCharAux_acc c xs [x]]
      simp only [List.reverse_cons, List.reverse_nil, List.nil_append, List.singleton_append]
      by_cases hmem : c ∈ xs
      · have htail : (JsStr.splitOnCharAux c xs []).tail ≠ [] := by
          rw [Ne, JsStr.splitOnCharAux_tail_eq_nil_iff]
          simp [hmem]
        rw [List.dropLast_cons_of_ne_nil htail]
        have hS : JsStr.splitOnCharAux c xs [] =
            (JsStr.splitOnCharAux c xs []).headI :: (JsStr.splitOnCharAux c xs []).tail := by
          simpa using JsStr.splitOnCharAux_acc c xs []
        rw [JsStr.joinLC_cons_cons]
        rw [show (JsStr.splitOnCharAux c xs []).headI :: (JsStr.splitOnCharAux c xs []).tail.dropLast
          = (JsStr.splitOnCharAux c xs []).dropLast from ?_]
        · rw [ih]
          simp [hmem]
        · rw [hS, List.dropLast_cons_of_ne_nil htail]
          simp
      · have htail : (JsStr.splitOnCharAux c xs []).tail = [] := by
          rw [JsStr.splitOnCharAux_tail_eq_nil_iff]
          exact hmem
        rw [htail]
        simp [JsStr.joinLC, hmem]

theorem JsStr.dropLast_mapL {α β : Type} (f : α → β) (l : List α) :
    (l.map f).dropLast = l.dropLast.map f := by
  induction l with
  | nil => simp
  | cons x xs ih =>
    cases xs with
    | nil => simp
    | cons y ys =>
      simp only [List.map_cons, List.dropLast_cons₂]
      simp only [List.map_cons] at ih
      rw [ih]

theorem JsStr.map_data_mk (segs : List (List Char)) :
    (segs.map String.mk).map String.data = segs := by
  induction segs with
  | nil => rfl
  | cons x xs ih => simp only [List.map_cons, ih]

theorem JsStr.dirname_eq (s : String) :
    JsStr.substringTo s (JsStr.lastIndexOfChar s '/') =
      JsStr.joinWith "/" ((JsStr.splitChar s '/').dropLast) := by
  have hsplit : ((JsStr.splitChar s '/').dropLast).map String.data =
      (JsStr.splitOnCharAux '/' s.data []).dropLast := by
    unfold JsStr.splitChar
    rw [JsStr.dropLast_mapL]
    exact JsStr.map_data_mk _
  unfold JsStr.substringTo JsStr.joinWith
  congr 1
  rw [hsplit]
  have hsep : "/".data = ['/'] := rfl
  rw [hsep, JsStr.join_dropLast_split]
  rw [← JsStr.take_lastIdx '/' s.data]
  unfold JsStr.lastIndexOfChar
  cases hl : JsStr.lastIdx '/' s.data with
  | some i => simp
  | none => simp

/-- C3: resolvePath resolves the concrete relationship round-trip
ppt/slides/slide1.xml with ../media/image1.png to ppt/media/image1.png, and
in general equals the segment-level POSIX-style algorithm the specification
describes (join to the base directory when the target has no leading
dot-dot; otherwise pop one directory per dot-dot segment and append the
remaining non-dot segments). -/
theorem spec2proof_c3 :
    PPTXParser.resolvePath "ppt/slides/slide1.xml" "../media/image1.png" =
      "ppt/media/image1.png" ∧
    ∀ basePath relativePath : String,
      PPTXParser.resolvePath basePath relativePath =
        resolvePathSpecC3 basePath relativePath := by
  constructor
  · rfl
  · intro base rel
    unfold PPTXParser.resolvePath resolvePathSpecC3
    by_cases h : JsStr.startsWith rel ".." = true
    · simp [h]
    · simp only [Bool.not_eq_true] at h
      simp [h, JsStr.dirname_eq]

/-! ## JsMap lemmas for C9 -/

theorem JsMap.getK_nil {β : Type} (k : String) : JsMap.getK ([] : JsMap β) k = none := rfl

theorem JsMap.getK_cons {β : Type} (q : String × β) (qs : JsMap β) (k : String) :
    JsMap.getK (q :: qs) k = if q.1 = k then some q.2 else JsMap.getK qs k := by
  simp only [JsMap.getK, List.find?]
  by_cases h : q.1 = k
  · simp [h]
  · simp [h]

theorem JsMap.getK_append {β : Type} (l1 l2 : JsMap β) (k : String) :
    JsMap.getK (l1 ++ l2) k = (JsMap.getK l1 k).or (JsMap.getK l2 k) := by
  induction l1 with
  | nil => simp [JsMap.getK_nil]
  | cons q qs ih =>
    simp only [List.cons_append, JsMap.getK_cons]
    by_cases h : q.1 = k
    · simp [h]
    · simp [h, ih]

theorem JsMap.getK_map_update {β : Type} (rest : JsMap β) (k k' : String) (v : β)
    (h : k' ≠ k) :
    JsMap.getK (rest.map (fun p => if p.1 = k then (k, v) else p)) k' =
      JsMap.getK rest k' := by
  induction rest with
  | nil => rfl
  | cons q qs ih =>
    simp only [List.map_cons]
    rw [JsMap.getK_cons, JsMap.getK_cons]
    by_cases hq : q.1 = k
    · simp only [hq, if_true]
      rw [if_neg (fun hc => h hc.symm), if_neg (fun hc => h hc.symm)]
      exact ih
    · simp only [hq, if_false]
      by_cases hq2 : q.1 = k'
      · simp [hq2]
      · simp [hq2, ih]

theorem JsMap.getK_of_any {β : Type} (m : JsMap β) (k : String) (v : β)
    (h : m.any (fun p => p.1 = k) = true) :
    JsMap.getK (m.map (fun p => if p.1 = k then (k, v) else p)) k = some v := by
  induction m with
  | nil => cases h
  | cons q qs ih =>
    simp only [List.map_cons]
    by_cases hq : q.1 = k
    · simp only [hq, if_true]
      rw [JsMap.getK_cons]
      simp
    · simp only [hq, if_false]
      rw [JsMap.getK_cons]
      rw [if_neg hq]
      apply ih
      simpa [hq] using h

theorem JsMap.any_eq_false_find? {β : Type} (m : JsMap β) (k : String)
    (h : m.any (fun p => p.1 = k) = false) :
    m.find? (fun p => p.1 = k) = none := by
  induction m with
  | nil => rfl
  | cons q qs ih =>
    simp only [List.any_cons, Bool.or_eq_false_iff] at h
    simp only [List.find?]
    rw [show (decide (q.1 = k)) = false from h.1]
    exact ih h.2

theorem JsMap.getK_eq_none_of_any_false {β : Type} (m : JsMap β) (k : String)
    (h : m.any (fun p => p.1 = k) = false) : JsMap.getK m k = none := by
  simp [JsMap.getK, JsMap.any_eq_false_find? m k h]

theorem JsMap.getK_setK {β : Type} (m : JsMap β) (k : String) (v : β) (k' : String) :
    JsMap.getK (JsMap.setK m k v) k' = if k' = k then some v else JsMap.getK m k' := by
  unfold JsMap.setK
  by_cases hany : m.any (fun p => p.1 = k) = true
  · rw [if_pos hany]
    by_cases hk : k' = k
    · subst hk
      simp [JsMap.getK_of_any m k' v hany]
    · rw [JsMap.getK_map_update m k k' v hk]
      simp [hk]
  · have hf : m.any (fun p => p.1 = k) = false := by
      cases hb : m.any (fun p => p.1 = k)
      · rfl
      · exact absurd hb hany
    rw [if_neg hany, JsMap.getK_append]
    by_cases hk : k' = k
    · subst hk
      rw [JsMap.getK_eq_none_of_any_false m k' hf]
      rw [JsMap.getK_cons]
      simp
    · rw [JsMap.getK_cons]
      rw [if_neg (fun hc => hk hc.symm)]
      simp [JsMap.getK_nil, hk]

theorem JsMap.keys_map_update {β : Type} (m : JsMap β) (k : String) (v : β) :
    (m.map (fun p => if p.1 = k then (k, v) else p)).map Prod.fst = m.map Prod.fst := by
  induction m with
  | nil => rfl
  | cons q qs ih =>
    by_cases hq : q.1 = k
    · simp [hq, ih]
    · simp [hq, ih]

theorem JsMap.nodup_keys_setK {β : Type} (m : JsMap β) (k : String) (v : β)
    (h : (m.map Prod.fst).Nodup) : ((JsMap.setK m k v).map Prod.fst).Nodup := by
  unfold JsMap.setK
  by_cases hany : m.any (fun p => p.1 = k) = true
  · rw [if_pos hany, JsMap.keys_map_update]
    exact h
  · have hf : m.any (fun p => p.1 = k) = false := by
      cases hb : m.any (fun p => p.1 = k)
      · rfl
      · exact absurd hb hany
    have hk : k ∉ m.map Prod.fst := by
      intro hc
      rcases List.mem_map.mp hc with ⟨p, hp, hpk⟩
      have h2 : m.any (fun p => p.1 = k) = true :=
        List.any_eq_true.mpr ⟨p, hp, by simp [hpk]⟩
      rw [hf] at h2
      cases h2
    rw [if_neg hany]
    simp only [List.map_append, List.map_cons, List.map_nil]
    rw [List.nodup_append]
    refine ⟨h, List.nodup_singleton k, ?_⟩
    intro a ha hb
    simp only [List.mem_singleton] at hb
    exact hk (hb ▸ ha)

theorem JsMap.getK_foldl_setK {β : Type} (ps : List (String × β)) :
    ∀ (m : JsMap β) (k : String),
      JsMap.getK (ps.foldl (fun m p => JsMap.setK m p.1 p.2) m) k =
        ((ps.reverse.find? (fun p => p.1 = k)).map (fun p => p.2)).or (JsMap.getK m k) := by
  induction ps with
  | nil => intro m k; simp
  | cons p rest ih =>
    intro m k
    simp only [List.foldl_cons, List.reverse_cons]
    rw [ih, List.find?_append]
    cases hf : rest.reverse.find? (fun q => q.1 = k) with
    | some q => simp [hf]
    | none =>
      rw [JsMap.getK_setK]
      by_cases hk : k = p.1
      · subst hk
        simp [List.find?, hf]
      · have hpk : (decide (p.1 = k)) = false := by
          simp only [decide_eq_false_iff_not]
          exact fun hc => hk hc.symm
        simp [List.find?, hpk, hk, hf]

theorem JsMap.nodup_foldl_setK {β : Type} (ps : List (String × β)) :
    ∀ m : JsMap β, (m.map Prod.fst).Nodup →
      ((ps.foldl (fun m p => JsMap.setK m p.1 p.2) m).map Prod.fst).Nodup := by
  induction ps with
  | nil => intro m h; simpa using h
  | cons p rest ih =>
    intro m h
    simp only [List.foldl_cons]
    exact ih _ (JsMap.nodup_keys_setK m p.1 p.2 h)

theorem RelationshipParser.parse_eq_foldl (xml : JSVal) (basePath : String) :
    RelationshipParser.parse xml basePath =
      (RelationshipParser.relPairs xml).foldl (fun m p => JsMap.setK m p.1 p.2) [] := by
  unfold RelationshipParser.parse RelationshipParser.relPairs RelationshipParser.relElems
  by_cases h1 : xml.truthy = true
  · simp only [h1, Bool.not_eq_true, Bool.true_eq_false, if_false]
    by_cases h2 : (xml.idx "Relationships").truthy = true
    · simp only [h2, Bool.not_eq_true, Bool.true_eq_false, if_false]
      have key : ∀ (l : List JSVal) (m : JsMap RelEntry),
          l.foldl (fun relationships rel =>
            let id := XMLParser.getAttr rel "Id"
            let type := (XMLParser.getAttr rel "Type").strOr ""
            let target := (XMLParser.getAttr rel "Target").strOr ""
            if id.truthy then JsMap.setK relationships id.toStr { target := target, type := type }
            else relationships) m =
          (l.filterMap (fun rel =>
            let id := XMLParser.getAttr rel "Id"
            if id.truthy then
              some (id.toStr, { target := (XMLParser.getAttr rel "Target").strOr ""
                                type := (XMLParser.getAttr rel "Type").strOr "" : RelEntry })
            else none)).foldl (fun m p => JsMap.setK m p.1 p.2) m := by
        intro l
        induction l with
        | nil => intro m; rfl
        | cons rel rest ih =>
          intro m
          simp only [List.foldl_cons, List.filterMap_cons]
          by_cases hc : (XMLParser.getAttr rel "Id").truthy = true
          · simp only [hc, if_true]
            exact ih _
          · simp only [hc, Bool.false_eq_true, if_false]
            exact ih m
      exact key _ []
    · simp [h2]
  · simp [h1]

/-- C9 (amended): the Relationship Resolver's parse returns a map with
exactly one entry per distinct truthy (non-empty) Id value among the
Relationship elements, keyed by that Id and holding the target and type of
the last element bearing it; elements without a truthy Id attribute (absent
or empty) produce no entry — and the parse has no warning or error channel
at all. -/
theorem spec2proof_c9 : ∀ (xml : JSVal) (basePath : String),
    RelationshipParser.parse xml basePath =
      (RelationshipParser.relPairs xml).foldl (fun m p => JsMap.setK m p.1 p.2) [] ∧
    ((RelationshipParser.parse xml basePath).map Prod.fst).Nodup ∧
    (∀ id : String, JsMap.getK (RelationshipParser.parse xml basePath) id =
      ((RelationshipParser.relPairs xml).reverse.find? (fun p => p.1 = id)).map
        (fun p => p.2)) := by
  intro xml basePath
  have he := RelationshipParser.parse_eq_foldl xml basePath
  refine ⟨he, ?_, ?_⟩
  · rw [he]
    exact JsMap.nodup_foldl_setK _ [] (by simp)
  · intro id
    rw [he, JsMap.getK_foldl_setK]
    cases hf : (RelationshipParser.relPairs xml).reverse.find? (fun p => p.1 = id) <;>
      simp [JsMap.getK_nil]

/-- C9 is corrected by this input: its single Relationship element carries
an Id attribute (the empty string), yet parse yields no entry for it (and
reports nothing). -/
theorem spec2proof_c9_counterexample :
    ((RelationshipParser.relElems cC9xml).getD 0 JSVal.vUndef).idx "@_Id" = JSVal.vStr "" ∧
    (RelationshipParser.relElems cC9xml).length = 1 ∧
    RelationshipParser.parse cC9xml "ppt/presentation.xml" = [] := ⟨rfl, rfl, rfl⟩

/-! ## Timeline lemmas for C10 -/

theorem TimingController.pending_addToTimeline (tl : List TimelineItem) (now : Int)
    (n : AnimationNode) (s d : Int) (h : ∀ i ∈ tl, i.state = "pending") :
    ∀ i ∈ TimingController.addToTimeline tl now n s d, i.state = "pending" := by
  intro i hi
  unfold TimingController.addToTimeline at hi
  rw [List.mem_append] at hi
  rcases hi with hi | hi
  · exact h i hi
  · simp only [List.mem_singleton] at hi
    subst hi
    rfl

theorem TimingController.pending_seqFold (now : Int) (children : List AnimationNode) :
    ∀ p : List TimelineItem × Int, (∀ i ∈ p.1, i.state = "pending") →
      ∀ i ∈ (children.foldl
        (fun (p : List TimelineItem × Int) child =>
          let childDuration := TimingController.nodeDuration child
          (TimingController.addToTimeline p.1 now child p.2 childDuration,
           p.2 + childDuration)) p).1, i.state = "pending" := by
  induction children with
  | nil => intro p h; exact h
  | cons c rest ih =>
    intro p h
    simp only [List.foldl_cons]
    exact ih _ (TimingController.pending_addToTimeline p.1 now c p.2 _ h)

theorem TimingController.pending_parFold (now : Int) (startTime : Int)
    (children : List AnimationNode) :
    ∀ p : List TimelineItem × Int, (∀ i ∈ p.1, i.state = "pending") →
      ∀ i ∈ (children.foldl
        (fun (p : List TimelineItem × Int) child =>
          let childDuration := TimingController.nodeDuration child
          (TimingController.addToTimeline p.1 now child startTime childDuration,
           max p.2 (startTime + childDuration))) p).1, i.state = "pending" := by
  induction children with
  | nil => intro p h; exact h
  | cons c rest ih =>
    intro p h
    simp only [List.foldl_cons]
    exact ih _ (TimingController.pending_addToTimeline p.1 now c startTime _ h)

theorem TimingController.pending_processNodes (now : Int) (nodes : List AnimationNode)
    (offset : Int) :
    ∀ (acc : List TimelineItem × Int), (∀ i ∈ acc.1, i.state = "pending") →
      ∀ i ∈ (nodes.foldl
        (fun acc node =>
          let timeline := acc.1
          let maxEndTime := acc.2
          let duration := TimingController.nodeDuration node
          let delay := TimingController.nodeDelay node
          let startTime := offset + delay
          if node.type = "sequence" ∧ node.children.isSome then
            let children := node.children.getD []
            let res := children.foldl
              (fun (p : List TimelineItem × Int) child =>
                let childDuration := TimingController.nodeDuration child
                (TimingController.addToTimeline p.1 now child p.2 childDuration,
                 p.2 + childDuration))
              (timeline, startTime)
            (res.1, max maxEndTime res.2)
          else if node.type = "parallel" ∧ node.children.isSome then
            let children := node.children.getD []
            let res := children.foldl
              (fun (p : List TimelineItem × Int) child =>
                let childDuration := TimingController.nodeDuration child
                (TimingController.addToTimeline p.1 now child startTime childDuration,
                 max p.2 (startTime + childDuration)))
              (timeline, startTime)
            (res.1, max maxEndTime res.2)
          else
            (TimingController.addToTimeline timeline now node startTime duration,
             max maxEndTime (startTime + duration))) acc).1,
        i.state = "pending" := by
  induction nodes with
  | nil => intro acc h; exact h
  | cons n rest ih =>
    intro acc h
    rw [List.foldl_cons]
    apply ih
    dsimp only
    by_cases h1 : n.type = "sequence" ∧ n.children.isSome
    · rw [if_pos h1]
      exact TimingController.pending_seqFold now (n.children.getD [])
        (acc.1, offset + TimingController.nodeDelay n) h
    · rw [if_neg h1]
      by_cases h2 : n.type = "parallel" ∧ n.children.isSome
      · rw [if_pos h2]
        exact TimingController.pending_parFold now (offset + TimingController.nodeDelay n)
          (n.children.getD []) (acc.1, offset + TimingController.nodeDelay n) h
      · rw [if_neg h2]
        exact TimingController.pending_addToTimeline acc.1 now n _ _ h

theorem TimingController.pending_prefix (now : Int) (seqs : List AnimationSequence) :
    ∀ (acc : List TimelineItem × Int), (∀ i ∈ acc.1, i.state = "pending") →
      ∀ i ∈ (seqs.foldl
        (fun (acc : List TimelineItem × Int) sequence =>
          TimingController.processNodes now sequence.children acc.1 acc.2) acc).1,
        i.state = "pending" := by
  induction seqs with
  | nil => intro acc h; exact h
  | cons s rest ih =>
    intro acc h
    rw [List.foldl_cons]
    apply ih
    have := TimingController.pending_processNodes now s.children acc.2 (acc.1, acc.2) h
    simpa [TimingController.processNodes] using this

/-- C10: after every buildTimeline call the timeline is sorted by
non-decreasing startTime, every item is in state pending, and an input with
no sequenceList yields the empty timeline. -/
theorem spec2proof_c10 : ∀ (now : Int) (timing : SlideTiming),
    List.Pairwise (fun a b : TimelineItem => a.startTime ≤ b.startTime)
      (TimingController.buildTimeline now timing) ∧
    ((TimingController.buildTimeline now timing).all
      (fun i => i.state == "pending") = true) ∧
    (timing.sequenceList = none → TimingController.buildTimeline now timing = []) := by
  intro now timing
  refine ⟨?_, ?_, ?_⟩
  · unfold TimingController.buildTimeline
    cases hs : timing.sequenceList with
    | none => simp
    | some seqs =>
      have htrans : ∀ a b c : TimelineItem,
          (decide (a.startTime ≤ b.startTime)) = true →
          (decide (b.startTime ≤ c.startTime)) = true →
          (decide (a.startTime ≤ c.startTime)) = true := by
        intro a b c hab hbc
        simp only [decide_eq_true_eq] at *
        omega
      have htotal : ∀ a b : TimelineItem,
          ((decide (a.startTime ≤ b.startTime)) || (decide (b.startTime ≤ a.startTime))) = true := by
        intro a b
        simp only [Bool.or_eq_true, decide_eq_true_eq]
        omega
      have hsorted := List.sorted_mergeSort htrans htotal
        ((seqs.foldl (fun (acc : List TimelineItem × Int) sequence =>
          TimingController.processNodes now sequence.children acc.1 acc.2) ([], 0)).1)
      refine List.Pairwise.imp ?_ hsorted
      intro a b hab
      simpa using hab
  · rw [List.all_eq_true]
    intro i hi
    have hmem : ∀ l : List TimelineItem, i ∈ l.mergeSort
        (fun a b => decide (a.startTime ≤ b.startTime)) → i ∈ l := by
      intro l hl
      exact (List.mem_mergeSort).mp hl
    have hpend : i.state = "pending" := by
      unfold TimingController.buildTimeline at hi
      cases hs : timing.sequenceList with
      | none => rw [hs] at hi; simp at hi
      | some seqs =>
        rw [hs] at hi
        simp only at hi
        have hi2 := hmem _ hi
        exact TimingController.pending_prefix now seqs ([], 0) (by simp) i hi2
    simp [hpend]
  · intro h
    unfold TimingController.buildTimeline
    rw [h]

theorem spec2proof_c10_witness :
    TimingController.buildTimeline 0 {} = [] :=
  (spec2proof_c10 0 {}).2.2 rfl

/-! ## Pipeline lemmas for C7 and C8 -/

theorem exceptBindError {α β : Type} (x : Except String α) (f : α → Except String β)
    (h : ∀ a, ∃ e, f a = .error e) : ∃ e, (x >>= f) = .error e := by
  cases x with
  | error e => exact ⟨e, rfl⟩
  | ok a => exact h a

theorem PPTXParser.parse_error_of_props (ar : Archive)
    (h : ∀ st : PPTXParser.PState,
      ∃ e, PPTXParser.parsePresentationProperties ar st = .error e) :
    ∃ e, PPTXParser.parse ar = .error e := by
  unfold PPTXParser.parse
  apply exceptBindError
  intro st1
  apply exceptBindError
  intro p
  obtain ⟨x, st2⟩ := p
  apply exceptBindError
  intro st3
  apply exceptBindError
  intro st4
  apply exceptBindError
  intro st5
  obtain ⟨e, he⟩ := h st5
  refine ⟨e, ?_⟩
  rw [he]
  rfl

/-- C7: the top-level parse is all-or-nothing: a missing
[Content_Types].xml, a missing ppt/presentation.xml, or a malformed
required part each make parse propagate a failure (and an Except.error
carries no partial Presentation), while a well-formed archive produces an
ok result holding the complete presentation and the accumulated
warnings. -/
theorem spec2proof_c7 :
    (∀ ar : Archive, PPTXParser.zipFile ar "[Content_Types].xml" = none →
      ∃ e, PPTXParser.parse ar = .error e) ∧
    (∀ ar : Archive, PPTXParser.zipFile ar "ppt/presentation.xml" = none →
      ∃ e, PPTXParser.parse ar = .error e) ∧
    (∀ ar : Archive, PPTXParser.zipFile ar "[Content_Types].xml" = some XFile.malformed ∨
        PPTXParser.zipFile ar "ppt/presentation.xml" = some XFile.malformed →
      ∃ e, PPTXParser.parse ar = .error e) ∧
    (∃ r : PPTXParser.ParseResultM, PPTXParser.parse cC7archive = .ok r) := by
  refine ⟨?_, ?_, ?_, ?_⟩
  · intro ar h
    have hct : PPTXParser.parseContentTypes ar {} = .error "Missing [Content_Types].xml" := by
      unfold PPTXParser.parseContentTypes PPTXParser.readXml
      rw [h]
      rfl
    refine ⟨"Missing [Content_Types].xml", ?_⟩
    simp only [PPTXParser.parse, hct]
    rfl
  · intro ar h
    apply PPTXParser.parse_error_of_props
    intro st
    refine ⟨"Missing presentation.xml", ?_⟩
    unfold PPTXParser.parsePresentationProperties PPTXParser.readXml
    rw [h]
    rfl
  · intro ar h
    rcases h with h | h
    · have hct : PPTXParser.parseContentTypes ar {} =
          .error "Failed to parse XML: [Content_Types].xml" := by
        unfold PPTXParser.parseContentTypes PPTXParser.readXml
        rw [h]
        rfl
      refine ⟨"Failed to parse XML: [Content_Types].xml", ?_⟩
      simp only [PPTXParser.parse, hct]
      rfl
    · apply PPTXParser.parse_error_of_props
      intro st
      refine ⟨"Failed to parse XML: ppt/presentation.xml", ?_⟩
      unfold PPTXParser.parsePresentationProperties PPTXParser.readXml
      rw [h]
      rfl
  · exact ⟨_, rfl⟩

theorem spec2proof_c7_witness :
    (∃ e, PPTXParser.parse [] = .error e) ∧
    (∃ e, PPTXParser.parse cC7archiveBadCT = .error e) ∧
    (∃ e, PPTXParser.parse cC7archiveBadPres = .error e) :=
  ⟨spec2proof_c7.1 [] rfl,
   spec2proof_c7.2.2.1 cC7archiveBadCT (Or.inl rfl),
   spec2proof_c7.2.2.1 cC7archiveBadPres (Or.inr rfl)⟩

theorem Except.okBind {α β : Type} (a : α) (f : α → Except String β) :
    (Except.ok a >>= f) = f a := rfl

theorem Except.pureOk {α : Type} (a : α) : (pure a : Except String α) = Except.ok a := rfl

/-- C8: a slide whose relationship map holds no resolvable slideLayout
relationship still parses without a fatal error, and the resulting slide
record has layoutId = "" and (with no layout cached under "") also
masterId = "". -/
theorem spec2proof_c8 (ar : Archive) (presRels : JsMap RelEntry) (i : Nat) (sldId : JSVal)
    (slides : List Slide) (st : PPTXParser.PState) (rid : String) (rel : RelEntry)
    (doc : JSVal) (sp : String)
    (hsp : sp = "ppt/" ++ JsStr.replaceFirst rel.target "../" "")
    (h0 : sldId.nullish = false)
    (h1 : (jsOr (sldId.idx "@_r:id") (sldId.idx "@_rid")).asStr = some rid)
    (h2 : JsMap.getK presRels rid = some rel)
    (h3 : PPTXParser.zipFile ar sp = some (XFile.xml doc))
    (h4 : doc.truthy = true)
    (h5 : JsMap.getK st.relationships sp = none)
    (h6 : PPTXParser.zipFile ar (PPTXParser.getRelationshipsPath sp) = none ∨
      ∃ d, PPTXParser.zipFile ar (PPTXParser.getRelationshipsPath sp) = some (XFile.xml d))
    (h7 : ∀ p ∈ PPTXParser.relMapOf ar sp, JsStr.includes p.2.type "slideLayout" = false)
    (h8 : ∀ p ∈ PPTXParser.relMapOf ar sp, JsStr.includes p.2.type "notesSlide" = false)
    (h9 : JsMap.getK st.layouts "" = none) :
    (PPTXParser.processSlide ar presRels i sldId (slides, st)).toOption.map (fun r => r.1) =
      some (slides ++ [SlideParser.parseSlide doc (PPTXParser.parseIntV (sldId.idx "@_id")) i
        "" "" (PPTXParser.relMapOf ar sp) JSVal.vNull]) ∧
    (SlideParser.parseSlide doc (PPTXParser.parseIntV (sldId.idx "@_id")) i "" ""
      (PPTXParser.relMapOf ar sp) JSVal.vNull).layoutId = "" ∧
    (SlideParser.parseSlide doc (PPTXParser.parseIntV (sldId.idx "@_id")) i "" ""
      (PPTXParser.relMapOf ar sp) JSVal.vNull).masterId = "" := by
  subst hsp
  have hfl : PPTXParser.findRelByTypePart
      (PPTXParser.relMapOf ar ("ppt/" ++ JsStr.replaceFirst rel.target "../" ""))
      "slideLayout" = none := by
    simp only [PPTXParser.findRelByTypePart, Option.map_eq_none']
    rw [List.find?_eq_none]
    intro p hp
    simp [h7 p hp]
  have hfn : PPTXParser.findRelByTypePart
      (PPTXParser.relMapOf ar ("ppt/" ++ JsStr.replaceFirst rel.target "../" ""))
      "notesSlide" = none := by
    simp only [PPTXParser.findRelByTypePart, Option.map_eq_none']
    rw [List.find?_eq_none]
    intro p hp
    simp [h8 p hp]
  rcases h6 with hzf | ⟨d, hzf⟩
  · have hrm : RelationshipParser.parse JSVal.vNull
        ("ppt/" ++ JsStr.replaceFirst rel.target "../" "") =
        PPTXParser.relMapOf ar ("ppt/" ++ JsStr.replaceFirst rel.target "../" "") := by
      simp [PPTXParser.relMapOf, hzf]
    refine ⟨?_, rfl, rfl⟩
    simp [PPTXParser.processSlide, PPTXParser.memAccess, h0, h1, h2, PPTXParser.readXml, h3,
          h4, PPTXParser.parseRelationshipsM, h5, hzf, hrm, hfl, hfn, h9,
          Except.okBind, Except.pureOk, Except.toOption]
  · have hrm : RelationshipParser.parse d
        ("ppt/" ++ JsStr.replaceFirst rel.target "../" "") =
        PPTXParser.relMapOf ar ("ppt/" ++ JsStr.replaceFirst rel.target "../" "") := by
      simp [PPTXParser.relMapOf, hzf]
    refine ⟨?_, rfl, rfl⟩
    simp [PPTXParser.processSlide, PPTXParser.memAccess, h0, h1, h2, PPTXParser.readXml, h3,
          h4, PPTXParser.parseRelationshipsM, h5, hzf, hrm, hfl, hfn, h9,
          Except.okBind, Except.pureOk, Except.toOption]

theorem spec2proof_c8_witness :
    (PPTXParser.processSlide cC8archive cC8presRels 0 cC8sldId
        ([], {})).toOption.map (fun r => r.1) =
      some [SlideParser.parseSlide (.vObj [("p:sld", .vObj [])])
        (PPTXParser.parseIntV (cC8sldId.idx "@_id")) 0 "" ""
        (PPTXParser.relMapOf cC8archive "ppt/slides/slide1.xml") JSVal.vNull] ∧
    (SlideParser.parseSlide (.vObj [("p:sld", .vObj [])])
      (PPTXParser.parseIntV (cC8sldId.idx "@_id")) 0 "" ""
      (PPTXParser.relMapOf cC8archive "ppt/slides/slide1.xml") JSVal.vNull).layoutId = "" ∧
    (SlideParser.parseSlide (.vObj [("p:sld", .vObj [])])
      (PPTXParser.parseIntV (cC8sldId.idx "@_id")) 0 "" ""
      (PPTXParser.relMapOf cC8archive "ppt/slides/slide1.xml") JSVal.vNull).masterId = "" := by
  have h := spec2proof_c8 cC8archive cC8presRels 0 cC8sldId [] {}
    "rId1" { target := "slides/slide1.xml", type := "slide" }
    (.vObj [("p:sld", .vObj [])]) "ppt/slides/slide1.xml"
    rfl rfl rfl rfl rfl rfl rfl (Or.inl rfl)
    (by intro p hp; cases hp) (by intro p hp; cases hp) rfl
  simpa using h
